import Mathlib

/-!
# The `install` command of `deploy`

A shallow embedding of `cmd/install/install.go`: the function `install` and the two
service installers `setupSGInit` and `setupSourcegraphd`.

The packages the command calls (`kernel`, `distro`, `disk`, `k3s`, `containerd`, `image`,
`helm`, `sourcegraph`, `service`), the embedded asset bundle and the failures of the
operating system are parameters, collected in `Env`.  The host is a `State`: the trace of
calls made so far, the contents of the files, and the table of open file handles.
-/

namespace Deploy

/-! ## Data model -/

/-- A Go `error` value. -/
structure Error where
  msg : String
deriving DecidableEq

/-- The content of a file or of an embedded asset. -/
abbrev Bytes := List Nat

/-- The part of `user.User` that `install` reads. -/
structure User where
  Uid : String
deriving DecidableEq

/-- Modelled from the spec: the filesystem types of package `disk`, of which `install`
names `disk.XFS` (the fixed filesystem type of the volume provisioning operation). -/
inductive FsType where
  | XFS
deriving DecidableEq

/-- Modelled from the spec: the options of `disk.NewDisk`, of which `install` passes
`disk.Mount()` (the mount-after-format option). -/
inductive DiskOption where
  | Mount
deriving DecidableEq

/-- One recorded call, with its arguments.  Recorded are the calls into the other
packages, the reads of the embedded bundle and the opens and writes of host files.  The
identity lookup and the closing of a file are not recorded: the first is the input of the
privilege check, the second shows in the table of open handles. -/
inductive Call where
  | setInotifyMaxUserWatches (v : Nat)
  | setVmMaxMapCount (v : Nat)
  | setSoftNProc (v : Nat)
  | setHardNProc (v : Nat)
  | setSoftNoFile (v : Nat)
  | setHardNoFile (v : Nat)
  | isAmazonLinux
  | isMounted (path device : String)
  | newDisk (path device : String) (fs : FsType) (opts : List DiskOption)
  | linkDataVolumes
  | containerdInstall
  | pull (img : String)
  | k3sInstall
  | helmInstall
  | unpackK8sConfigs
  | writeSourcegraphVersion (version user : String)
  | readFile (name : String)
  | openFile (path : String) (flag perm : Nat)
  | write (path : String) (data : Bytes)
  | enable (unit : String)
deriving DecidableEq

/-- An entry of the table of open files: descriptor, path and current offset. -/
structure Handle where
  fd : Nat
  path : String
  offset : Nat
deriving DecidableEq

/-- The host as `install` sees and changes it. -/
structure State where
  trace : List Call
  files : String → Option Bytes
  handles : List Handle
  nextFd : Nat

/-- The results of everything `install` calls but does not define; the packages called lie
outside `install.go` and are taken as capabilities whose results are given.  A result is an
`Option Error` (`none` is Go's `nil`) or an `Except Error _` for a call that also returns
a value.  A call made at most once per argument in a run has its result per argument; a
pull has it per position in the image list.  The pulls of a run are made concurrently:
`schedule` is the order in which they happen, given as picks among the pulls not yet made
(see `scheduled`), so that every order is the order of some environment.  The distribution
predicate is a stateless
query, so its two calls in a run return the same value.  `sgversion` is the package-level
version value.  `openErr` and `writeErr` are the failures of the operating system per
path; a failed write reports how many bytes it wrote. -/
structure Env where
  userCurrent : Except Error User
  setInotifyMaxUserWatches : Nat → Option Error
  setVmMaxMapCount : Nat → Option Error
  setSoftNProc : Nat → Option Error
  setHardNProc : Nat → Option Error
  setSoftNoFile : Nat → Option Error
  setHardNoFile : Nat → Option Error
  isAmazonLinux : Bool
  isMounted : String → String → Except Error Bool
  newDisk : String → String → FsType → List DiskOption → Option Error
  linkDataVolumes : Option Error
  containerdInstall : Option Error
  images : List String
  schedule : List Nat
  pull : Nat → String → Option Error
  k3sInstall : Option Error
  helmInstall : Option Error
  unpackK8sConfigs : Option Error
  sgversion : String
  writeSourcegraphVersion : String → String → Option Error
  embeddedFS : String → Except Error Bytes
  openErr : String → Option Error
  writeErr : String → Option (Nat × Error)
  enable : String → Option Error

/-- Take the element at position `i` out of the nonempty list `x :: xs` (the last one when
`i` is past the end): the element taken and the elements left, in their order. -/
def takeOut {α : Type} : Nat → α → List α → α × List α
  | 0, x, xs => (x, xs)
  | _ + 1, x, [] => (x, [])
  | i + 1, x, y :: ys => ((takeOut i y ys).1, x :: (takeOut i y ys).2)

/-- The order in which concurrent tasks happen: each pick takes one of the tasks not yet
run; when the picks run out, the tasks left run in list order.  Every order of the tasks
is given by some picks (`scheduled_surj`). -/
def scheduled {α : Type} : List Nat → List α → List α
  | _, [] => []
  | [], x :: xs => x :: xs
  | p :: ps, x :: xs => (takeOut p x xs).1 :: scheduled ps (takeOut p x xs).2

/-- Append a call to the trace. -/
def State.log (s : State) (c : Call) : State :=
  { s with trace := s.trace ++ [c] }

/-! ## The operating system: `os.OpenFile`, `File.Write`, `File.Close` -/

/-- The value of `os.O_RDWR` on Linux. -/
def os.O_RDWR : Nat := 0x2

/-- The value of `os.O_CREATE` on Linux. -/
def os.O_CREATE : Nat := 0x40

/-- The value of `os.O_TRUNC` on Linux. -/
def os.O_TRUNC : Nat := 0x200

/-- Whether the open flags `flag` contain the bit `bit`. -/
def os.hasFlag (flag bit : Nat) : Bool :=
  flag &&& bit != 0

/-- The content of a file after `data` is written at offset `off` over `old`: the bytes
before `off` stay (a gap is filled with zeros), `data` replaces what it covers, and the
bytes of `old` past the end of `data` stay. -/
def os.writeAt (old : Bytes) (off : Nat) (data : Bytes) : Bytes :=
  old.take off ++ List.replicate (off - old.length) 0 ++ data ++ old.drop (off + data.length)

/-- Replace the first entry of the handle table that has the descriptor of `h`. -/
def os.setHandle : List Handle → Handle → List Handle
  | [], _ => []
  | x :: t, h => if x.fd == h.fd then h :: t else x :: os.setHandle t h

/-- Go's `os.OpenFile(path, flag, perm)`: fails when the environment says so, or when the file
is absent and `O_CREATE` is not set.  Otherwise an absent file is created empty, an
existing file keeps its content unless `O_TRUNC` is set, and a new handle at offset 0 is
returned. -/
def os.OpenFile (e : Env) (path : String) (flag perm : Nat) (s : State) :
    Except Error Nat × State :=
  let s := s.log (.openFile path flag perm)
  match e.openErr path with
  | some err => (.error err, s)
  | none =>
    match s.files path with
    | none =>
      if os.hasFlag flag os.O_CREATE then
        (.ok s.nextFd,
          { s with
            files := fun p => if p = path then some [] else s.files p
            handles := ⟨s.nextFd, path, 0⟩ :: s.handles
            nextFd := s.nextFd + 1 })
      else (.error ⟨"no such file or directory"⟩, s)
    | some old =>
      (.ok s.nextFd,
        { s with
          files := fun p =>
            if p = path then some (if os.hasFlag flag os.O_TRUNC then [] else old)
            else s.files p
          handles := ⟨s.nextFd, path, 0⟩ :: s.handles
          nextFd := s.nextFd + 1 })

/-- Go's `f.Write(b)`: writes `b` at the handle's offset and advances the offset.  When the
environment makes the write fail after `n` bytes, only the first `n` bytes of `b` are
written and the error is returned. -/
def os.File.Write (e : Env) (fd : Nat) (b : Bytes) (s : State) : Option Error × State :=
  match s.handles.find? (fun h => h.fd == fd) with
  | none => (some ⟨"file already closed"⟩, s)
  | some h =>
    let s := s.log (.write h.path b)
    let old := (s.files h.path).getD []
    match e.writeErr h.path with
    | some (n, err) =>
      let part := b.take n
      (some err,
        { s with
          files := fun p => if p = h.path then some (os.writeAt old h.offset part) else s.files p
          handles := os.setHandle s.handles { h with offset := h.offset + part.length } })
    | none =>
      (none,
        { s with
          files := fun p => if p = h.path then some (os.writeAt old h.offset b) else s.files p
          handles := os.setHandle s.handles { h with offset := h.offset + b.length } })

/-- Go's `f.Close()`: removes the handle from the table of open files.  The callers discard
its error. -/
def os.File.Close (fd : Nat) (s : State) : State :=
  { s with handles := s.handles.eraseP (fun h => h.fd == fd) }

/-- Go's `defer`: the deferred function runs when the rest of the body has returned, and
leaves the returned error as it is. -/
def withDefer (deferred : State → State) (r : Option Error × State) : Option Error × State :=
  (r.1, deferred r.2)

/-! ## The packages `install` calls -/

/-- The call `user.Current()`, the identity lookup.  It is the input of the privilege check
and is not recorded in the trace. -/
def user.Current (e : Env) : Except Error User :=
  e.userCurrent

/-- Go's `errors.Errorf(msg)`: a new error with the given message. -/
def errors.Errorf (msg : String) : Error :=
  ⟨msg⟩

/-- The call `kernel.SetInotifyMaxUserWatches(ctx, v)`: it is recorded and returns what the
environment gives it. -/
def kernel.SetInotifyMaxUserWatches (e : Env) (v : Nat) (s : State) : Option Error × State :=
  (e.setInotifyMaxUserWatches v, s.log (.setInotifyMaxUserWatches v))

/-- The call `kernel.SetVmMaxMapCount(ctx, v)`: it is recorded and returns what the
environment gives it. -/
def kernel.SetVmMaxMapCount (e : Env) (v : Nat) (s : State) : Option Error × State :=
  (e.setVmMaxMapCount v, s.log (.setVmMaxMapCount v))

/-- The call `kernel.SetSoftNProc(v)`: it is recorded and returns what the
environment gives it. -/
def kernel.SetSoftNProc (e : Env) (v : Nat) (s : State) : Option Error × State :=
  (e.setSoftNProc v, s.log (.setSoftNProc v))

/-- The call `kernel.SetHardNProc(v)`: it is recorded and returns what the
environment gives it. -/
def kernel.SetHardNProc (e : Env) (v : Nat) (s : State) : Option Error × State :=
  (e.setHardNProc v, s.log (.setHardNProc v))

/-- The call `kernel.SetSoftNoFile(v)`: it is recorded and returns what the
environment gives it. -/
def kernel.SetSoftNoFile (e : Env) (v : Nat) (s : State) : Option Error × State :=
  (e.setSoftNoFile v, s.log (.setSoftNoFile v))

/-- The call `kernel.SetHardNoFile(v)`: it is recorded and returns what the
environment gives it. -/
def kernel.SetHardNoFile (e : Env) (v : Nat) (s : State) : Option Error × State :=
  (e.setHardNoFile v, s.log (.setHardNoFile v))

/-- The call `distro.IsAmazonLinux()`: it is recorded and returns what the
environment gives it. -/
def distro.IsAmazonLinux (e : Env) (s : State) : Bool × State :=
  (e.isAmazonLinux, s.log .isAmazonLinux)

/-- The call `disk.IsMounted(path, device)`: it is recorded and returns what the
environment gives it. -/
def disk.IsMounted (e : Env) (path device : String) (s : State) : Except Error Bool × State :=
  (e.isMounted path device, s.log (.isMounted path device))

/-- The call `disk.NewDisk(ctx, path, device, fs, opts...)`: it is recorded and returns what the
environment gives it. -/
def disk.NewDisk (e : Env) (path device : String) (fs : FsType) (opts : List DiskOption)
    (s : State) : Option Error × State :=
  (e.newDisk path device fs opts, s.log (.newDisk path device fs opts))

/-- The call `k3s.LinkDataVolumes()`: it is recorded and returns what the
environment gives it. -/
def k3s.LinkDataVolumes (e : Env) (s : State) : Option Error × State :=
  (e.linkDataVolumes, s.log .linkDataVolumes)

/-- The call `containerd.Install(ctx)`: it is recorded and returns what the
environment gives it. -/
def containerd.Install (e : Env) (s : State) : Option Error × State :=
  (e.containerdInstall, s.log .containerdInstall)

/-- The call `image.Images()`: the fixed list of image references. -/
def image.Images (e : Env) : List String :=
  e.images

/-- The call `image.Pull(ctx, img)`: it is recorded and returns what the environment gives
it.  The number `i` is the position of `img` in the image list, so that the
environment can let each pull of a run succeed or fail on its own. -/
def image.Pull (e : Env) (i : Nat) (img : String) (s : State) : Option Error × State :=
  (e.pull i img, s.log (.pull img))

/-- Go's `iter.ForEach(input, f)` of package `conc`: runs `f` once on every element of
`input`, concurrently, and returns when all have finished.  A run of `f` here is one
recorded call, so the concurrent runs happen in some order: the order the environment's
schedule gives.  The number passed to `f` is the position of the element in `input`. -/
def iter.ForEach {α : Type} (e : Env) (input : List α) (f : Nat → α → State → State)
    (s : State) : State :=
  (scheduled e.schedule input.enum).foldl (fun s x => f x.1 x.2 s) s

/-- The call `k3s.Install(ctx)`: it is recorded and returns what the
environment gives it. -/
def k3s.Install (e : Env) (s : State) : Option Error × State :=
  (e.k3sInstall, s.log .k3sInstall)

/-- The call `helm.Install()`: it is recorded and returns what the
environment gives it. -/
def helm.Install (e : Env) (s : State) : Option Error × State :=
  (e.helmInstall, s.log .helmInstall)

/-- The call `sourcegraph.UnpackK8sConfigs()`: it is recorded and returns what the
environment gives it. -/
def sourcegraph.UnpackK8sConfigs (e : Env) (s : State) : Option Error × State :=
  (e.unpackK8sConfigs, s.log .unpackK8sConfigs)

/-- The call `sourcegraph.WriteSourcegraphVersion(version, user)`: it is recorded and returns what the
environment gives it. -/
def sourcegraph.WriteSourcegraphVersion (e : Env) (version user : String) (s : State) :
    Option Error × State :=
  (e.writeSourcegraphVersion version user, s.log (.writeSourcegraphVersion version user))

/-- The call `embeddedFS.ReadFile(name)`: it is recorded and returns what the
environment gives it. -/
def embeddedFS.ReadFile (e : Env) (name : String) (s : State) : Except Error Bytes × State :=
  (e.embeddedFS name, s.log (.readFile name))

/-- The call `service.Enable(ctx, unit)`: it is recorded and returns what the
environment gives it. -/
def service.Enable (e : Env) (unit : String) (s : State) : Option Error × State :=
  (e.enable unit, s.log (.enable unit))

/-! ## `setupSGInit`, `setupSourcegraphd` and `install` -/

/-- The function `setupSGInit` of `install.go`. -/
def setupSGInit (e : Env) (s : State) : Option Error × State :=
  match embeddedFS.ReadFile e "bin/sg-init.service" s with
  | (.error err, s) => (some err, s)
  | (.ok srv, s) =>
  match os.OpenFile e "/etc/systemd/system/sg-init.service" (os.O_RDWR ||| os.O_CREATE) 0o754 s with
  | (.error err, s) => (some err, s)
  | (.ok unpackedSrv, s) =>
  withDefer (os.File.Close unpackedSrv) <|
  match os.File.Write e unpackedSrv srv s with
  | (some err, s) => (some err, s)
  | (none, s) =>
  match embeddedFS.ReadFile e "bin/sg-init" s with
  | (.error err, s) => (some err, s)
  | (.ok bin, s) =>
  match os.OpenFile e "/usr/local/bin/sg-init" (os.O_RDWR ||| os.O_CREATE) 0o755 s with
  | (.error err, s) => (some err, s)
  | (.ok unpackedBin, s) =>
  withDefer (os.File.Close unpackedBin) <|
  match os.File.Write e unpackedBin bin s with
  | (some err, s) => (some err, s)
  | (none, s) =>
  match service.Enable e "sg-init.service" s with
  | (some err, s) => (some err, s)
  | (none, s) => (none, s)

/-- The function `setupSourcegraphd` of `install.go`.  The unit-file handle has no
deferred `Close`. -/
def setupSourcegraphd (e : Env) (s : State) : Option Error × State :=
  match embeddedFS.ReadFile e "bin/sourcegraphd.service" s with
  | (.error err, s) => (some err, s)
  | (.ok srv, s) =>
  match os.OpenFile e "/etc/systemd/system/sourcegraphd.service" (os.O_RDWR ||| os.O_CREATE) 0o755 s with
  | (.error err, s) => (some err, s)
  | (.ok unpackedSrv, s) =>
  match os.File.Write e unpackedSrv srv s with
  | (some err, s) => (some err, s)
  | (none, s) =>
  match embeddedFS.ReadFile e "bin/sourcegraphd" s with
  | (.error err, s) => (some err, s)
  | (.ok bin, s) =>
  match os.OpenFile e "/usr/local/bin/sourcegraphd" (os.O_RDWR ||| os.O_CREATE) 0o755 s with
  | (.error err, s) => (some err, s)
  | (.ok unpackedBin, s) =>
  withDefer (os.File.Close unpackedBin) <|
  match os.File.Write e unpackedBin bin s with
  | (some err, s) => (some err, s)
  | (none, s) =>
  match service.Enable e "sourcegraphd.service" s with
  | (some err, s) => (some err, s)
  | (none, s) => (none, s)

/-- The volume block of `install`: `if distro.IsAmazonLinux() { ... }` with the mount
query and the provisioning of the data volume. -/
def install.volume (e : Env) (s : State) : Option Error × State :=
  match distro.IsAmazonLinux e s with
  | (false, s) => (none, s)
  | (true, s) =>
  match disk.IsMounted e "/mnt/data" "/dev/nvme1n1" s with
  | (.error err, s) => (some err, s)
  | (.ok mounted, s) =>
  if !mounted then
    match disk.NewDisk e "/mnt/data" "/dev/nvme1n1" .XFS [.Mount] s with
    | (some err, s) => (some err, s)
    | (none, s) => (none, s)
  else (none, s)

/-- The version block of `install`: `if distro.IsAmazonLinux() { ... }` with the write of
the version stamp. -/
def install.version (e : Env) (s : State) : Option Error × State :=
  match distro.IsAmazonLinux e s with
  | (false, s) => (none, s)
  | (true, s) =>
  match sourcegraph.WriteSourcegraphVersion e e.sgversion "ec2-user" s with
  | (some err, s) => (some err, s)
  | (none, s) => (none, s)

/-- The function `install` of `install.go`. -/
def install (e : Env) (s : State) : Option Error × State :=
  match user.Current e with
  | .error err => (some err, s)
  | .ok u =>
  if u.Uid ≠ "0" then
    (some (errors.Errorf "please rerun installer with root privileges"), s)
  else
  match kernel.SetInotifyMaxUserWatches e 128000 s with
  | (some err, s) => (some err, s)
  | (none, s) =>
  match kernel.SetVmMaxMapCount e 300000 s with
  | (some err, s) => (some err, s)
  | (none, s) =>
  match kernel.SetSoftNProc e 8192 s with
  | (some err, s) => (some err, s)
  | (none, s) =>
  match kernel.SetHardNProc e 16384 s with
  | (some err, s) => (some err, s)
  | (none, s) =>
  match kernel.SetSoftNoFile e 262144 s with
  | (some err, s) => (some err, s)
  | (none, s) =>
  match kernel.SetHardNoFile e 262144 s with
  | (some err, s) => (some err, s)
  | (none, s) =>
  match install.volume e s with
  | (some err, s) => (some err, s)
  | (none, s) =>
  match k3s.LinkDataVolumes e s with
  | (some err, s) => (some err, s)
  | (none, s) =>
  match containerd.Install e s with
  | (some err, s) => (some err, s)
  | (none, s) =>
  let s := iter.ForEach e (image.Images e) (fun i img s => (image.Pull e i img s).2) s
  match k3s.Install e s with
  | (some err, s) => (some err, s)
  | (none, s) =>
  match helm.Install e s with
  | (some err, s) => (some err, s)
  | (none, s) =>
  match sourcegraph.UnpackK8sConfigs e s with
  | (some err, s) => (some err, s)
  | (none, s) =>
  match install.version e s with
  | (some err, s) => (some err, s)
  | (none, s) =>
  match setupSGInit e s with
  | (some err, s) => (some err, s)
  | (none, s) =>
  match setupSourcegraphd e s with
  | (some err, s) => (some err, s)
  | (none, s) => (none, s)

/-! ## The steps of a run, in program order -/

/-- A step of a run: the call it makes and the result the environment gives that call. -/
structure Step where
  call : Call
  result : Option Error

/-- Whether a call is an image pull. -/
def Call.isPull : Call → Bool
  | .pull _ => true
  | _ => false

/-- The error of a call that also returns a value. -/
def errOf {α : Type} : Except Error α → Option Error
  | .error err => some err
  | .ok _ => none

/-- The value a failed asset read leaves in the variable (never used by the code). -/
def bytesOf : Except Error Bytes → Bytes
  | .error _ => []
  | .ok b => b

/-- The six kernel settings in the order of section 4.2, with their values. -/
def kernelSteps (e : Env) : List Step :=
  [⟨.setInotifyMaxUserWatches 128000, e.setInotifyMaxUserWatches 128000⟩,
   ⟨.setVmMaxMapCount 300000, e.setVmMaxMapCount 300000⟩,
   ⟨.setSoftNProc 8192, e.setSoftNProc 8192⟩,
   ⟨.setHardNProc 16384, e.setHardNProc 16384⟩,
   ⟨.setSoftNoFile 262144, e.setSoftNoFile 262144⟩,
   ⟨.setHardNoFile 262144, e.setHardNoFile 262144⟩]

/-- The steps of the volume provisioner: the distribution predicate, then on a matching
host the mount query, then the provisioning when the query reports not mounted. -/
def volumeSteps (e : Env) : List Step :=
  ⟨.isAmazonLinux, none⟩ ::
    (if e.isAmazonLinux then
      ⟨.isMounted "/mnt/data" "/dev/nvme1n1", errOf (e.isMounted "/mnt/data" "/dev/nvme1n1")⟩ ::
        (match e.isMounted "/mnt/data" "/dev/nvme1n1" with
          | .ok false =>
            [⟨.newDisk "/mnt/data" "/dev/nvme1n1" .XFS [.Mount],
              e.newDisk "/mnt/data" "/dev/nvme1n1" .XFS [.Mount]⟩]
          | _ => [])
    else [])

/-- One pull per entry of the image list, in the order the pulls of the run happen. -/
def pullSteps (e : Env) : List Step :=
  (scheduled e.schedule e.images.enum).map (fun x => ⟨.pull x.2, e.pull x.1 x.2⟩)

/-- The pulls of a run, in the order they happen. -/
def pullCalls (e : Env) : List Call :=
  (scheduled e.schedule e.images.enum).map (fun x => Call.pull x.2)

/-- The steps of the version stamper. -/
def versionSteps (e : Env) : List Step :=
  ⟨.isAmazonLinux, none⟩ ::
    (if e.isAmazonLinux then
      [⟨.writeSourcegraphVersion e.sgversion "ec2-user",
        e.writeSourcegraphVersion e.sgversion "ec2-user"⟩]
    else [])

/-- The steps of a service installer: read and write the unit file, read and write the
executable, enable the unit. -/
def serviceSteps (e : Env) (unitAsset unitPath : String) (unitPerm : Nat)
    (binAsset binPath unitName : String) : List Step :=
  [⟨.readFile unitAsset, errOf (e.embeddedFS unitAsset)⟩,
   ⟨.openFile unitPath (os.O_RDWR ||| os.O_CREATE) unitPerm, e.openErr unitPath⟩,
   ⟨.write unitPath (bytesOf (e.embeddedFS unitAsset)), (e.writeErr unitPath).map Prod.snd⟩,
   ⟨.readFile binAsset, errOf (e.embeddedFS binAsset)⟩,
   ⟨.openFile binPath (os.O_RDWR ||| os.O_CREATE) 0o755, e.openErr binPath⟩,
   ⟨.write binPath (bytesOf (e.embeddedFS binAsset)), (e.writeErr binPath).map Prod.snd⟩,
   ⟨.enable unitName, e.enable unitName⟩]

/-- The steps of `setupSGInit`. -/
def sgInitSteps (e : Env) : List Step :=
  serviceSteps e "bin/sg-init.service" "/etc/systemd/system/sg-init.service" 0o754
    "bin/sg-init" "/usr/local/bin/sg-init" "sg-init.service"

/-- The steps of `setupSourcegraphd`. -/
def sourcegraphdSteps (e : Env) : List Step :=
  serviceSteps e "bin/sourcegraphd.service" "/etc/systemd/system/sourcegraphd.service" 0o755
    "bin/sourcegraphd" "/usr/local/bin/sourcegraphd" "sourcegraphd.service"

/-- The steps before the image prefetch: the kernel settings, the volume provisioner, the
linking of the data volumes and the installation of the container runtime. -/
def prePullSteps (e : Env) : List Step :=
  kernelSteps e ++ volumeSteps e ++
    [⟨.linkDataVolumes, e.linkDataVolumes⟩, ⟨.containerdInstall, e.containerdInstall⟩]

/-- The steps between the image prefetch and the version stamper: the installation of the
cluster distribution and of the chart manager, and the unpacking of the manifests. -/
def clusterSteps (e : Env) : List Step :=
  [⟨.k3sInstall, e.k3sInstall⟩, ⟨.helmInstall, e.helmInstall⟩,
   ⟨.unpackK8sConfigs, e.unpackK8sConfigs⟩]

/-- The steps of a run of `install` by the superuser, in the order `install` takes them;
the pulls are in the order in which they happen in the run. -/
def plan (e : Env) : List Step :=
  prePullSteps e ++ pullSteps e ++ clusterSteps e ++ versionSteps e ++ sgInitSteps e ++
    sourcegraphdSteps e

/-- The error that makes a step abort the run: its result, unless the step is an image
pull. -/
def Step.abort (st : Step) : Option Error :=
  if st.call.isPull then none else st.result

/-- Fail-fast execution of a list of steps: the calls made, and the error of the first
step that aborts (`none` when no step does). -/
def runPlan : List Step → Option Error × List Call
  | [] => (none, [])
  | st :: rest =>
    match st.abort with
    | some err => (some err, [st.call])
    | none => ((runPlan rest).1, st.call :: (runPlan rest).2)

/-- The calls made between the state `s` and the later state `s'`. -/
def newCalls (s s' : State) : List Call :=
  s'.trace.drop s.trace.length

/-- The calls a run of `install` makes from the state `s`. -/
def install.calls (e : Env) (s : State) : List Call :=
  newCalls s (install e s).2

/-- That `r` is the outcome of running the steps `p` fail-fast from a state whose trace is
`tr`: the same error, and the trace extended by the calls made. -/
def Runs (r : Option Error × State) (tr : List Call) (p : List Step) : Prop :=
  r.1 = (runPlan p).1 ∧ r.2.trace = tr ++ (runPlan p).2

/-- The six kernel settings of section 4.2 in their fixed order, each with its value. -/
def kernelSettings : List Call :=
  [.setInotifyMaxUserWatches 128000, .setVmMaxMapCount 300000, .setSoftNProc 8192,
   .setHardNProc 16384, .setSoftNoFile 262144, .setHardNoFile 262144]

/-- Whether a call is the disk-provisioning operation. -/
def Call.isNewDisk : Call → Bool
  | .newDisk _ _ _ _ => true
  | _ => false

/-- Whether a call is the mount-state query. -/
def Call.isMountQuery : Call → Bool
  | .isMounted _ _ => true
  | _ => false

/-- Whether a call is the write of the version stamp. -/
def Call.isVersionStamp : Call → Bool
  | .writeSourcegraphVersion _ _ => true
  | _ => false

/-- Whether a call is the service manager's enable operation. -/
def Call.isEnable : Call → Bool
  | .enable _ => true
  | _ => false

/-- Whether a call opens the file at `path`. -/
def Call.opens (path : String) : Call → Bool
  | .openFile p _ _ => p == path
  | _ => false

/-- Whether a call belongs to the stretch from the linking of the data volumes to the
installation of the chart manager. -/
def Call.isRuntimeStep : Call → Bool
  | .linkDataVolumes => true
  | .containerdInstall => true
  | .pull _ => true
  | .k3sInstall => true
  | .helmInstall => true
  | _ => false

/-- The stretch of a complete run from the linking of the data volumes to the installation
of the chart manager, in the order `install` makes these calls. -/
def runtimeSegment (e : Env) : List Call :=
  [.linkDataVolumes, .containerdInstall] ++ pullCalls e ++
    [.k3sInstall, .helmInstall]

/-- The steps of the stretch from the linking of the data volumes to the installation of
the chart manager, in the order `install` takes them. -/
def runtimeSteps (e : Env) : List Step :=
  [⟨.linkDataVolumes, e.linkDataVolumes⟩, ⟨.containerdInstall, e.containerdInstall⟩] ++
    pullSteps e ++ [⟨.k3sInstall, e.k3sInstall⟩, ⟨.helmInstall, e.helmInstall⟩]

/-! ## The two service installers, side by side -/

/-- The two services `install` sets up. -/
inductive Service where
  | sgInit
  | sourcegraphd
deriving DecidableEq

/-- The name of the service's unit file in the embedded bundle. -/
def Service.unitAsset : Service → String
  | .sgInit => "bin/sg-init.service"
  | .sourcegraphd => "bin/sourcegraphd.service"

/-- The path the service's unit file is written to. -/
def Service.unitPath : Service → String
  | .sgInit => "/etc/systemd/system/sg-init.service"
  | .sourcegraphd => "/etc/systemd/system/sourcegraphd.service"

/-- The permission bits the unit file is opened with. -/
def Service.unitPerm : Service → Nat
  | .sgInit => 0o754
  | .sourcegraphd => 0o755

/-- The name of the service's executable in the embedded bundle. -/
def Service.binAsset : Service → String
  | .sgInit => "bin/sg-init"
  | .sourcegraphd => "bin/sourcegraphd"

/-- The path the service's executable is written to. -/
def Service.binPath : Service → String
  | .sgInit => "/usr/local/bin/sg-init"
  | .sourcegraphd => "/usr/local/bin/sourcegraphd"

/-- The unit name passed to the service manager. -/
def Service.unitName : Service → String
  | .sgInit => "sg-init.service"
  | .sourcegraphd => "sourcegraphd.service"

/-- The installer of the service. -/
def Service.setup : Service → Env → State → Option Error × State
  | .sgInit => setupSGInit
  | .sourcegraphd => setupSourcegraphd

/-- The content of a file that held `old` (`none`: the file was absent) after `asset` has
been written at its start without truncation: the asset, then the bytes of `old` beyond the
asset's length. -/
def overwrite (asset : Bytes) (old : Option Bytes) : Bytes :=
  asset ++ (old.getD []).drop asset.length

/-! ## Concrete hosts -/

/-- An embedded bundle with both services' unit files and executables. -/
def bundle : String → Except Error Bytes
  | "bin/sg-init.service" => .ok [1, 2]
  | "bin/sg-init" => .ok [3, 4, 5]
  | "bin/sourcegraphd.service" => .ok [6]
  | "bin/sourcegraphd" => .ok [7, 8]
  | _ => .error ⟨"file does not exist"⟩

/-- A host on which the superuser runs the command on Amazon Linux with the data volume
not yet mounted, every call succeeds and three images are to be pulled. -/
def envOK : Env where
  userCurrent := .ok ⟨"0"⟩
  setInotifyMaxUserWatches := fun _ => none
  setVmMaxMapCount := fun _ => none
  setSoftNProc := fun _ => none
  setHardNProc := fun _ => none
  setSoftNoFile := fun _ => none
  setHardNoFile := fun _ => none
  isAmazonLinux := true
  isMounted := fun _ _ => .ok false
  newDisk := fun _ _ _ _ => none
  linkDataVolumes := none
  containerdInstall := none
  images := ["a", "b", "c"]
  schedule := []
  pull := fun _ _ => none
  k3sInstall := none
  helmInstall := none
  unpackK8sConfigs := none
  sgversion := "v1"
  writeSourcegraphVersion := fun _ _ => none
  embeddedFS := bundle
  openErr := fun _ => none
  writeErr := fun _ => none
  enable := fun _ => none

/-- The host `envOK` with the command run by an ordinary user. -/
def envNotRoot : Env :=
  { envOK with userCurrent := .ok ⟨"1000"⟩ }

/-- The host `envOK` where the pulls happen in the order a, c, b, and the pull of the second
image and the chart-manager install fail. -/
def envHelmFails : Env :=
  { envOK with
    schedule := [0, 1]
    pull := fun i _ => if i = 1 then some ⟨"pull"⟩ else none
    helmInstall := some ⟨"helm"⟩ }

/-- The host `envOK` where the fourth kernel setting fails. -/
def envNProcFails : Env :=
  { envOK with setHardNProc := fun _ => some ⟨"nproc"⟩ }

/-- The host `envOK` where the pulls happen in the order c, a, b, and every pull fails. -/
def envPullsFail : Env :=
  { envOK with
    schedule := [2, 0]
    pull := fun _ _ => some ⟨"pull"⟩ }

/-- The host `envOK` with one image to pull and a failing cluster-distribution install. -/
def envK3sFails : Env :=
  { envOK with
    images := ["a"]
    k3sInstall := some ⟨"k3s"⟩ }

/-- The host `envOK` on another distribution than Amazon Linux. -/
def envOther : Env :=
  { envOK with isAmazonLinux := false }

/-- The host `envOK` with a bundle that holds the unit files but no executable. -/
def envNoBin : Env :=
  { envOK with
    embeddedFS := fun n =>
      if n = "bin/sg-init.service" then .ok [1, 2]
      else if n = "bin/sourcegraphd.service" then .ok [6]
      else .error ⟨"file does not exist"⟩ }

/-- The host `envNoBin` on a file system that cannot be written: every open fails. -/
def envReadOnly : Env :=
  { envNoBin with openErr := fun _ => some ⟨"read-only file system"⟩ }

/-- A fresh host: nothing recorded, no file, no open handle. -/
def hostEmpty : State :=
  ⟨[], fun _ => none, [], 3⟩

/-- A host on which an earlier, longer version of each service file is installed. -/
def hostOld : State :=
  ⟨[], fun p =>
      if p = "/etc/systemd/system/sg-init.service" then some [9, 9, 9, 9, 9]
      else if p = "/etc/systemd/system/sourcegraphd.service" then some [9, 9, 9]
      else none, [], 3⟩

/-! ## The run of `install` as a fail-fast run of its steps -/

/-- The flags `O_RDWR|O_CREATE` contain `O_CREATE`. -/
theorem hasFlag_create : os.hasFlag (os.O_RDWR ||| os.O_CREATE) os.O_CREATE = true := by decide

/-- The flags `O_RDWR|O_CREATE` do not contain `O_TRUNC`. -/
theorem hasFlag_trunc : os.hasFlag (os.O_RDWR ||| os.O_CREATE) os.O_TRUNC = false := by decide

/-- Fail-fast execution of two lists of steps, one after the other. -/
theorem runPlan_append (a b : List Step) :
    runPlan (a ++ b) =
      match (runPlan a).1 with
      | some err => (some err, (runPlan a).2)
      | none => ((runPlan b).1, (runPlan a).2 ++ (runPlan b).2) := by
  induction a with
  | nil => simp [runPlan]
  | cons st rest ih =>
    simp only [List.cons_append, runPlan]
    cases h : st.abort with
    | some err => simp
    | none =>
      cases h2 : (runPlan rest).1 <;> simp [ih, h2]

/-- What `os.OpenFile` does with the flags `O_RDWR|O_CREATE`: the file keeps its content. -/
theorem openFile_eq (e : Env) (path : String) (perm : Nat) (s : State) :
    os.OpenFile e path (os.O_RDWR ||| os.O_CREATE) perm s =
      match e.openErr path with
      | some err =>
        (.error err, ⟨s.trace ++ [.openFile path (os.O_RDWR ||| os.O_CREATE) perm], s.files,
          s.handles, s.nextFd⟩)
      | none =>
        (.ok s.nextFd, ⟨s.trace ++ [.openFile path (os.O_RDWR ||| os.O_CREATE) perm],
          fun p => if p = path then some ((s.files path).getD []) else s.files p,
          ⟨s.nextFd, path, 0⟩ :: s.handles, s.nextFd + 1⟩) := by
  unfold os.OpenFile
  cases h : e.openErr path <;> simp [State.log]
  cases h2 : s.files path <;> simp [hasFlag_create, hasFlag_trunc]

/-- What `Write` does on the handle opened last. -/
theorem write_eq (e : Env) (fd : Nat) (path : String) (off : Nat) (b : Bytes)
    (tr : List Call) (fs : String → Option Bytes) (hs : List Handle) (n : Nat) :
    os.File.Write e fd b ⟨tr, fs, ⟨fd, path, off⟩ :: hs, n⟩ =
      match e.writeErr path with
      | some (k, err) =>
        (some err, ⟨tr ++ [.write path b],
          fun p => if p = path then some (os.writeAt ((fs path).getD []) off (b.take k)) else fs p,
          ⟨fd, path, off + (b.take k).length⟩ :: hs, n⟩)
      | none =>
        (none, ⟨tr ++ [.write path b],
          fun p => if p = path then some (os.writeAt ((fs path).getD []) off b) else fs p,
          ⟨fd, path, off + b.length⟩ :: hs, n⟩) := by
  simp only [os.File.Write, List.find?, beq_self_eq_true, State.log, os.setHandle]
  cases h : e.writeErr path <;> simp

/-- What `Close` does on the handle opened last. -/
theorem close_eq (fd : Nat) (path : String) (off : Nat)
    (tr : List Call) (fs : String → Option Bytes) (hs : List Handle) (n : Nat) :
    os.File.Close fd ⟨tr, fs, ⟨fd, path, off⟩ :: hs, n⟩ = ⟨tr, fs, hs, n⟩ := by
  simp [os.File.Close]

/-- The error and the trace of `setupSGInit` are those of its steps run fail-fast. -/
theorem setupSGInit_run (e : Env) (s : State) :
    (setupSGInit e s).1 = (runPlan (sgInitSteps e)).1 ∧
    (setupSGInit e s).2.trace = s.trace ++ (runPlan (sgInitSteps e)).2 := by
  simp only [setupSGInit, sgInitSteps, serviceSteps, runPlan, Step.abort, Call.isPull,
    embeddedFS.ReadFile, openFile_eq, service.Enable, withDefer,
    State.log]
  cases h1 : e.embeddedFS "bin/sg-init.service" <;> simp [errOf, bytesOf]
  cases h2 : e.openErr "/etc/systemd/system/sg-init.service" <;> simp [write_eq]
  cases h4 : e.writeErr "/etc/systemd/system/sg-init.service" <;> simp [close_eq]
  cases h5 : e.embeddedFS "bin/sg-init" <;> simp [errOf, bytesOf, close_eq]
  cases h6 : e.openErr "/usr/local/bin/sg-init" <;> simp [write_eq, close_eq]
  cases h7 : e.writeErr "/usr/local/bin/sg-init" <;> simp [close_eq]
  cases h8 : e.enable "sg-init.service" <;> simp [close_eq]

/-- The error and the trace of `setupSourcegraphd` are those of its steps run fail-fast. -/
theorem setupSourcegraphd_run (e : Env) (s : State) :
    (setupSourcegraphd e s).1 = (runPlan (sourcegraphdSteps e)).1 ∧
    (setupSourcegraphd e s).2.trace = s.trace ++ (runPlan (sourcegraphdSteps e)).2 := by
  simp only [setupSourcegraphd, sourcegraphdSteps, serviceSteps, runPlan, Step.abort, Call.isPull,
    embeddedFS.ReadFile, openFile_eq, service.Enable, withDefer,
    State.log]
  cases h1 : e.embeddedFS "bin/sourcegraphd.service" <;> simp [errOf, bytesOf]
  cases h2 : e.openErr "/etc/systemd/system/sourcegraphd.service" <;> simp [write_eq]
  cases h4 : e.writeErr "/etc/systemd/system/sourcegraphd.service" <;> simp [close_eq]
  cases h5 : e.embeddedFS "bin/sourcegraphd" <;> simp [errOf, bytesOf, close_eq]
  cases h6 : e.openErr "/usr/local/bin/sourcegraphd" <;> simp [write_eq, close_eq]
  cases h7 : e.writeErr "/usr/local/bin/sourcegraphd" <;> simp [close_eq]
  cases h8 : e.enable "sourcegraphd.service" <;> simp [close_eq]

/-- The error and the trace of the volume block are those of its steps run fail-fast. -/
theorem volume_run (e : Env) (s : State) :
    (install.volume e s).1 = (runPlan (volumeSteps e)).1 ∧
    (install.volume e s).2.trace = s.trace ++ (runPlan (volumeSteps e)).2 := by
  simp only [install.volume, volumeSteps, distro.IsAmazonLinux, disk.IsMounted, disk.NewDisk,
    State.log]
  cases h1 : e.isAmazonLinux <;> simp [runPlan, Step.abort, Call.isPull]
  cases h2 : e.isMounted "/mnt/data" "/dev/nvme1n1" with
  | error err => simp [errOf, runPlan, Step.abort, Call.isPull]
  | ok m =>
    cases m <;> simp [errOf, runPlan, Step.abort, Call.isPull]
    cases h3 : e.newDisk "/mnt/data" "/dev/nvme1n1" .XFS [.Mount] <;> simp

/-- The error and the trace of the version block are those of its steps run fail-fast. -/
theorem version_run (e : Env) (s : State) :
    (install.version e s).1 = (runPlan (versionSteps e)).1 ∧
    (install.version e s).2.trace = s.trace ++ (runPlan (versionSteps e)).2 := by
  simp only [install.version, versionSteps, distro.IsAmazonLinux,
    sourcegraph.WriteSourcegraphVersion, State.log]
  cases h1 : e.isAmazonLinux <;> simp [runPlan, Step.abort, Call.isPull]
  cases h3 : e.writeSourcegraphVersion e.sgversion "ec2-user" <;> simp

/-- Each pick takes one element out: the element taken and those left are the list. -/
theorem takeOut_perm {α : Type} (i : Nat) (x : α) (xs : List α) :
    ((takeOut i x xs).1 :: (takeOut i x xs).2).Perm (x :: xs) := by
  induction xs generalizing i x with
  | nil => cases i <;> simp [takeOut]
  | cons y ys ih =>
    cases i with
    | zero => simp [takeOut]
    | succ i =>
      simp only [takeOut]
      exact (List.Perm.swap _ _ _).trans ((ih i y).cons x)

/-- Whatever the picks, the scheduled tasks are the tasks, each once, in some order. -/
theorem scheduled_perm {α : Type} (ps : List Nat) (l : List α) : (scheduled ps l).Perm l := by
  induction ps generalizing l with
  | nil => cases l <;> simp [scheduled]
  | cons p ps ih =>
    cases l with
    | nil => simp [scheduled]
    | cons x xs =>
      simp only [scheduled]
      exact ((ih _).cons _).trans (takeOut_perm p x xs)

/-- Every element of a nonempty list can be picked. -/
theorem takeOut_surj {α : Type} (x : α) (xs : List α) (y : α) (h : y ∈ x :: xs) :
    ∃ i, (takeOut i x xs).1 = y := by
  induction xs generalizing x with
  | nil =>
    simp at h
    exact ⟨0, by simp [takeOut, h]⟩
  | cons z zs ih =>
    rcases List.mem_cons.1 h with h | h
    · exact ⟨0, by simp [takeOut, h]⟩
    · obtain ⟨i, hi⟩ := ih z h
      exact ⟨i + 1, by simp [takeOut, hi]⟩

/-- Every order of the tasks is the order some picks give: the model of the concurrent
loop leaves the order of the pulls free. -/
theorem scheduled_surj {α : Type} (l l' : List α) (h : l'.Perm l) :
    ∃ ps, scheduled ps l = l' := by
  induction l' generalizing l with
  | nil =>
    have := h.symm.eq_nil
    subst this
    exact ⟨[], rfl⟩
  | cons y ys ih =>
    cases l with
    | nil => simpa using h.length_eq
    | cons x xs =>
      obtain ⟨i, hi⟩ := takeOut_surj x xs y (h.subset (by simp))
      have hp := takeOut_perm i x xs
      rw [hi] at hp
      have hrest : ys.Perm (takeOut i x xs).2 := (h.trans hp.symm).cons_inv
      obtain ⟨ps, hps⟩ := ih _ hrest
      exact ⟨i :: ps, by simp [scheduled, hi, hps]⟩

/-- An order of the images of a list under a map comes from an order of the list. -/
theorem perm_map_lift {α β : Type} [DecidableEq α] (f : α → β) (l : List β) (L : List α)
    (h : l.Perm (L.map f)) : ∃ l0 : List α, l0.Perm L ∧ l0.map f = l := by
  induction l generalizing L with
  | nil =>
    have := h.symm.eq_nil
    simp at this
    subst this
    exact ⟨[], List.Perm.refl _, rfl⟩
  | cons b bs ih =>
    have hb : b ∈ L.map f := h.subset (by simp)
    obtain ⟨a, ha, hab⟩ := List.mem_map.1 hb
    have hL : L.Perm (a :: L.erase a) := List.perm_cons_erase ha
    have h2 : (b :: bs).Perm (b :: (L.erase a).map f) := by
      have := h.trans (hL.map f)
      simpa [hab] using this
    obtain ⟨l1, hl1, hm⟩ := ih (L.erase a) h2.cons_inv
    exact ⟨a :: l1, (hl1.cons a).trans hL.symm, by simp [hab, hm]⟩

/-- The pulls of a run are one pull per entry of the image list, in some order. -/
theorem pullCalls_perm (e : Env) : (pullCalls e).Perm (e.images.map Call.pull) := by
  have h := (scheduled_perm e.schedule e.images.enum).map (fun x => Call.pull x.2)
  have h2 : e.images.enum.map (fun x => Call.pull x.2) = e.images.map Call.pull := by
    conv_rhs => rw [← List.enum_map_snd e.images, List.map_map]
    rfl
  rw [h2] at h
  exact h

/-- Every order of the pulls is the order of the pulls in some environment that differs
only in its schedule. -/
theorem pullCalls_surj (e : Env) (l : List Call) (h : l.Perm (e.images.map Call.pull)) :
    ∃ sch, pullCalls { e with schedule := sch } = l := by
  have h2 : e.images.enum.map (fun x => Call.pull x.2) = e.images.map Call.pull := by
    conv_rhs => rw [← List.enum_map_snd e.images, List.map_map]
    rfl
  rw [← h2] at h
  obtain ⟨l0, hl0, hmap⟩ := perm_map_lift (fun x : Nat × String => Call.pull x.2) l
    e.images.enum h
  obtain ⟨sch, hs⟩ := scheduled_surj e.images.enum l0 hl0
  exact ⟨sch, by simp [pullCalls, hs, hmap]⟩

/-- A call among the pulls of a run is a pull. -/
theorem mem_pullCalls {e : Env} {c : Call} (h : c ∈ pullCalls e) : ∃ img, c = Call.pull img := by
  simp only [pullCalls, List.mem_map] at h
  obtain ⟨x, -, hx⟩ := h
  exact ⟨x.2, hx.symm⟩

/-- A loop of pulls over any list of images: one recorded pull per image, nothing else
changes. -/
theorem foldl_pull (e : Env) (l : List (Nat × String)) (s : State) :
    l.foldl (fun s x => (image.Pull e x.1 x.2 s).2) s =
      ⟨s.trace ++ l.map (fun x => Call.pull x.2), s.files, s.handles, s.nextFd⟩ := by
  induction l generalizing s with
  | nil => simp
  | cons x rest ih =>
    simp only [List.foldl_cons, ih]
    simp [image.Pull, State.log]

/-- The prefetch loop of `install`: one recorded pull per image, nothing else changes. -/
theorem forEach_pull (e : Env) (s : State) :
    iter.ForEach e (image.Images e) (fun i img s => (image.Pull e i img s).2) s =
      ⟨s.trace ++ pullCalls e, s.files, s.handles, s.nextFd⟩ := by
  simp [iter.ForEach, image.Images, foldl_pull, pullCalls]

/-- Pull steps never abort, for any list of images. -/
theorem runPlan_pulls_list (e : Env) (l : List (Nat × String)) (rest : List Step) :
    runPlan (l.map (fun x => (⟨.pull x.2, e.pull x.1 x.2⟩ : Step)) ++ rest) =
      ((runPlan rest).1, l.map (fun x => Call.pull x.2) ++ (runPlan rest).2) := by
  induction l with
  | nil => simp
  | cons x tl ih => simp [runPlan, Step.abort, Call.isPull, ih]

/-- Pull steps never abort: the steps after them run whatever the pulls return. -/
theorem runPlan_pulls (e : Env) (rest : List Step) :
    runPlan (pullSteps e ++ rest) = ((runPlan rest).1, pullCalls e ++ (runPlan rest).2) := by
  simp [pullSteps, pullCalls, runPlan_pulls_list]

/-- Go's `err = f(); if err != nil { return err }` followed by the rest of the body runs the
steps of `f` and then those of the rest. -/
theorem runs_seq {r : Option Error × State} {k : State → Option Error × State}
    {tr : List Call} {p1 p2 : List Step} :
    Runs r tr p1 → (∀ s, Runs (k s) s.trace p2) →
    Runs (match r with
      | (some err, s) => (some err, s)
      | (none, s) => k s) tr (p1 ++ p2) := by
  intro h1 h2
  obtain ⟨r1, s1⟩ := r
  obtain ⟨ha, hb⟩ := h1
  simp only at ha hb
  unfold Runs
  rw [runPlan_append]
  cases r1 with
  | some err => simp [← ha, hb]
  | none =>
    obtain ⟨hc, hd⟩ := h2 s1
    simp [← ha, hb, hc, hd]

/-- A single recorded call that is not a pull is one step. -/
theorem runs_call (res : Option Error) (s : State) (c : Call) (hc : c.isPull = false) :
    Runs (res, s.log c) s.trace [⟨c, res⟩] := by
  cases res <;> simp [Runs, runPlan, Step.abort, hc, State.log]

/-- Returning `nil` runs no step. -/
theorem runs_done (s : State) : Runs (none, s) s.trace [] := by
  simp [Runs, runPlan]

/-- The steps after the pulls start from the trace extended by the pulls. -/
theorem runs_pulls {r : Option Error × State} {tr : List Call} {p : List Step} (e : Env)
    (h : Runs r (tr ++ pullCalls e) p) : Runs r tr (pullSteps e ++ p) := by
  obtain ⟨ha, hb⟩ := h
  simp [Runs, runPlan_pulls, ha, hb]

/-- The plan, one step or block at a time. -/
theorem plan_eq (e : Env) :
    plan e =
      [⟨.setInotifyMaxUserWatches 128000, e.setInotifyMaxUserWatches 128000⟩] ++
      ([⟨.setVmMaxMapCount 300000, e.setVmMaxMapCount 300000⟩] ++
      ([⟨.setSoftNProc 8192, e.setSoftNProc 8192⟩] ++
      ([⟨.setHardNProc 16384, e.setHardNProc 16384⟩] ++
      ([⟨.setSoftNoFile 262144, e.setSoftNoFile 262144⟩] ++
      ([⟨.setHardNoFile 262144, e.setHardNoFile 262144⟩] ++
      (volumeSteps e ++
      ([⟨.linkDataVolumes, e.linkDataVolumes⟩] ++
      ([⟨.containerdInstall, e.containerdInstall⟩] ++
      (pullSteps e ++
      ([⟨.k3sInstall, e.k3sInstall⟩] ++
      ([⟨.helmInstall, e.helmInstall⟩] ++
      ([⟨.unpackK8sConfigs, e.unpackK8sConfigs⟩] ++
      (versionSteps e ++
      (sgInitSteps e ++
      (sourcegraphdSteps e ++ []))))))))))))))) := by
  simp [plan, kernelSteps, prePullSteps, clusterSteps]

/-- The error and the trace of a run of `install` by the superuser are those of the plan run
fail-fast. -/
theorem install_run (e : Env) (s : State) (u : User) (hu : e.userCurrent = .ok u)
    (hroot : u.Uid = "0") : Runs (install e s) s.trace (plan e) := by
  rw [plan_eq]
  simp only [install, user.Current, hu, hroot, ne_eq, not_true_eq_false, if_false]
  refine runs_seq ?_ (fun s => ?_)
  · exact runs_call _ _ _ rfl
  refine runs_seq ?_ (fun s => ?_)
  · exact runs_call _ _ _ rfl
  refine runs_seq ?_ (fun s => ?_)
  · exact runs_call _ _ _ rfl
  refine runs_seq ?_ (fun s => ?_)
  · exact runs_call _ _ _ rfl
  refine runs_seq ?_ (fun s => ?_)
  · exact runs_call _ _ _ rfl
  refine runs_seq ?_ (fun s => ?_)
  · exact runs_call _ _ _ rfl
  refine runs_seq (volume_run e s) (fun s => ?_)
  refine runs_seq ?_ (fun s => ?_)
  · exact runs_call _ _ _ rfl
  refine runs_seq ?_ (fun s => ?_)
  · exact runs_call _ _ _ rfl
  refine runs_pulls e ?_
  rw [forEach_pull]
  refine runs_seq ?_ (fun s => ?_)
  · exact runs_call _ ⟨_, _, _, _⟩ _ rfl
  refine runs_seq ?_ (fun s => ?_)
  · exact runs_call _ _ _ rfl
  refine runs_seq ?_ (fun s => ?_)
  · exact runs_call _ _ _ rfl
  refine runs_seq (version_run e s) (fun s => ?_)
  refine runs_seq (setupSGInit_run e s) (fun s => ?_)
  refine runs_seq (setupSourcegraphd_run e s) (fun s => ?_)
  exact runs_done s


/-! ## Fail-fast runs of a list of steps -/

/-- The calls between a state and a later state whose trace extends it by `l` are `l`. -/
theorem newCalls_append (s s' : State) (l : List Call) (h : s'.trace = s.trace ++ l) :
    newCalls s s' = l := by
  simp [newCalls, h]

/-- The calls of a run of `install` by the superuser are those of the plan run fail-fast. -/
theorem install_calls (e : Env) (s : State) (u : User) (hu : e.userCurrent = .ok u)
    (hroot : u.Uid = "0") : install.calls e s = (runPlan (plan e)).2 :=
  newCalls_append _ _ _ (install_run e s u hu hroot).2

/-- When no step aborts, every step is run and no error is returned. -/
theorem runPlan_ok (p : List Step) (h : ∀ st ∈ p, st.abort = none) :
    runPlan p = (none, p.map Step.call) := by
  induction p with
  | nil => rfl
  | cons st rest ih =>
    have h1 : st.abort = none := h st (by simp)
    have h2 := ih (fun x hx => h x (by simp [hx]))
    simp [runPlan, h1, h2]

/-- When step `k` is the first to abort, its error is returned and the calls made are those
of the steps up to and including step `k`. -/
theorem runPlan_first_failure (p : List Step) (k : Nat) (st : Step) (err : Error)
    (hk : p[k]? = some st) (hfail : st.abort = some err)
    (hfirst : ∀ sj ∈ p.take k, sj.abort = none) :
    runPlan p = (some err, (p.take (k + 1)).map Step.call) := by
  induction p generalizing k with
  | nil => simp at hk
  | cons x rest ih =>
    cases k with
    | zero =>
      simp at hk
      subst hk
      simp [runPlan, hfail]
    | succ k =>
      simp at hk
      have hx : x.abort = none := hfirst x (by simp)
      have := ih k hk (fun sj hsj => hfirst sj (by simp [hsj]))
      simp [runPlan, hx, this]

/-- The calls made are an initial stretch of the calls of the steps. -/
theorem runPlan_calls_le (p : List Step) : (runPlan p).2 <+: p.map Step.call := by
  induction p with
  | nil => simp [runPlan]
  | cons x rest ih =>
    simp only [runPlan]
    cases h : x.abort with
    | some err => simp
    | none => simpa using ih

/-- A call that is made is the call of one of the steps. -/
theorem mem_of_runPlan {p : List Step} {c : Call} (h : c ∈ (runPlan p).2) :
    c ∈ p.map Step.call :=
  (runPlan_calls_le p).subset h

/-- When the first list aborts, the second is not run. -/
theorem runPlan_append_some (a b : List Step) (err : Error) (h : (runPlan a).1 = some err) :
    runPlan (a ++ b) = (some err, (runPlan a).2) := by
  rw [runPlan_append, h]

/-- When the first list does not abort, the second is run after it. -/
theorem runPlan_append_none (a b : List Step) (h : (runPlan a).1 = none) :
    runPlan (a ++ b) = ((runPlan b).1, (runPlan a).2 ++ (runPlan b).2) := by
  rw [runPlan_append, h]

/-- A run that returns no error has made the calls of all its steps. -/
theorem runPlan_none (p : List Step) (h : (runPlan p).1 = none) :
    (runPlan p).2 = p.map Step.call := by
  induction p with
  | nil => rfl
  | cons x rest ih =>
    simp only [runPlan] at h ⊢
    cases hx : x.abort with
    | some err => simp [hx] at h
    | none =>
      simp only [hx] at h ⊢
      simp [ih h]

/-- A kind of call that none of the steps makes is not among the calls made. -/
theorem filter_nil_of_runPlan (q : Call → Bool) (p : List Step)
    (h : ∀ c ∈ p.map Step.call, q c = false) : (runPlan p).2.filter q = [] :=
  List.filter_eq_nil_iff.2 (fun c hc => by simp [h c (mem_of_runPlan hc)])

/-! ## The calls of each block of the plan -/

/-- The calls of the pull steps are the pulls of the run. -/
theorem pullSteps_calls (e : Env) : (pullSteps e).map Step.call = pullCalls e := by
  simp only [pullSteps, pullCalls, List.map_map]
  rfl

/-- The calls of the stretch from the linking of the data volumes to the chart manager. -/
theorem runtimeSteps_calls (e : Env) : (runtimeSteps e).map Step.call = runtimeSegment e := by
  simp [runtimeSteps, runtimeSegment, pullSteps_calls]

/-- The plan, split around the stretch from the linking of the data volumes to the chart
manager. -/
theorem plan_split (e : Env) :
    plan e = (kernelSteps e ++ volumeSteps e) ++ (runtimeSteps e ++
      (⟨.unpackK8sConfigs, e.unpackK8sConfigs⟩ ::
        (versionSteps e ++ sgInitSteps e ++ sourcegraphdSteps e))) := by
  simp [plan, prePullSteps, clusterSteps, runtimeSteps]

/-- The error of the plan does not depend on the pulls: it is the error of the other
steps. -/
theorem runPlan_plan_fst (e : Env) :
    (runPlan (plan e)).1 = (runPlan (prePullSteps e ++
      (clusterSteps e ++ versionSteps e ++ sgInitSteps e ++ sourcegraphdSteps e))).1 := by
  have hplan : plan e = prePullSteps e ++ (pullSteps e ++
      (clusterSteps e ++ versionSteps e ++ sgInitSteps e ++ sourcegraphdSteps e)) := by
    simp [plan]
  rw [hplan]
  cases h : (runPlan (prePullSteps e)).1 with
  | some err => rw [runPlan_append_some _ _ err h, runPlan_append_some _ _ err h]
  | none => rw [runPlan_append_none _ _ h, runPlan_append_none _ _ h, runPlan_pulls]

/-- The calls of the version stamper. -/
theorem mem_version_calls {e : Env} {c : Call} (h : c ∈ (versionSteps e).map Step.call) :
    c = .isAmazonLinux ∨ c = .writeSourcegraphVersion e.sgversion "ec2-user" := by
  unfold versionSteps at h
  split at h <;> simp at h <;> tauto

/-- The calls of a service installer. -/
theorem mem_service_calls {e : Env} {ua up : String} {perm : Nat} {ba bp un : String} {c : Call}
    (h : c ∈ (serviceSteps e ua up perm ba bp un).map Step.call) :
    c = .readFile ua ∨ c = .openFile up (os.O_RDWR ||| os.O_CREATE) perm ∨
    c = .write up (bytesOf (e.embeddedFS ua)) ∨ c = .readFile ba ∨
    c = .openFile bp (os.O_RDWR ||| os.O_CREATE) 0o755 ∨
    c = .write bp (bytesOf (e.embeddedFS ba)) ∨ c = .enable un := by
  simpa [serviceSteps] using h

/-- The calls of the volume provisioner. -/
theorem mem_volume_calls {e : Env} {c : Call} (h : c ∈ (volumeSteps e).map Step.call) :
    c = .isAmazonLinux ∨ c = .isMounted "/mnt/data" "/dev/nvme1n1" ∨
      c = .newDisk "/mnt/data" "/dev/nvme1n1" .XFS [.Mount] := by
  unfold volumeSteps at h
  split at h
  · split at h <;> simp at h <;> tauto
  · simp at h; tauto

/-- The calls of the kernel tuner are the six kernel settings. -/
theorem mem_kernel_calls {e : Env} {c : Call} (h : c ∈ (kernelSteps e).map Step.call) :
    c ∈ kernelSettings := by
  simpa [kernelSteps, kernelSettings] using h

/-- The two service installers make none of the calls the properties below single out. -/
theorem service_calls {e : Env} {c : Call}
    (h : c ∈ (sgInitSteps e ++ sourcegraphdSteps e).map Step.call) :
    c.isPull = false ∧ c.isNewDisk = false ∧ c.isMountQuery = false ∧
      c.isRuntimeStep = false ∧ c.isVersionStamp = false := by
  simp only [List.map_append, List.mem_append] at h
  rcases h with h | h <;>
    rcases mem_service_calls h with h | h | h | h | h | h | h <;> subst h <;>
      simp [Call.isPull, Call.isNewDisk, Call.isMountQuery, Call.isRuntimeStep,
        Call.isVersionStamp]

/-- The steps from the version stamper on pull no image, query no mount and provision no
disk. -/
theorem tail_calls {e : Env} {c : Call}
    (h : c ∈ (versionSteps e ++ sgInitSteps e ++ sourcegraphdSteps e).map Step.call) :
    c.isPull = false ∧ c.isNewDisk = false ∧ c.isMountQuery = false ∧
      c.isRuntimeStep = false := by
  simp only [List.append_assoc, List.map_append, List.mem_append] at h
  rcases h with h | h
  · rcases mem_version_calls h with h | h <;> subst h <;> simp [Call.isPull, Call.isNewDisk,
      Call.isMountQuery, Call.isRuntimeStep]
  · have := service_calls (e := e) (c := c) (by simpa using h)
    tauto

/-- The kernel tuner and the volume provisioner pull no image and write no version stamp. -/
theorem head_calls {e : Env} {c : Call}
    (h : c ∈ (kernelSteps e ++ volumeSteps e).map Step.call) :
    c.isPull = false ∧ c.isVersionStamp = false ∧ c.isRuntimeStep = false := by
  simp only [List.map_append, List.mem_append] at h
  rcases h with h | h
  · have := mem_kernel_calls h
    simp [kernelSettings] at this
    rcases this with h | h | h | h | h | h <;> subst h <;>
      simp [Call.isPull, Call.isVersionStamp, Call.isRuntimeStep]
  · rcases mem_volume_calls h with h | h | h <;> subst h <;>
      simp [Call.isPull, Call.isVersionStamp, Call.isRuntimeStep]

/-- The steps before the prefetch pull no image and write no version stamp. -/
theorem prePull_calls {e : Env} {c : Call} (h : c ∈ (prePullSteps e).map Step.call) :
    c.isPull = false ∧ c.isVersionStamp = false := by
  simp only [prePullSteps, List.map_append, List.mem_append, List.map_cons, List.map_nil,
    List.mem_cons, List.not_mem_nil, or_false] at h
  rcases h with h | h | h
  · have := head_calls (e := e) (c := c) (by simpa using h)
    tauto
  · subst h; exact ⟨rfl, rfl⟩
  · subst h; exact ⟨rfl, rfl⟩

/-- The steps after the volume provisioner query no mount and provision no disk. -/
theorem after_volume_calls {e : Env} {c : Call}
    (h : c ∈ (([⟨.linkDataVolumes, e.linkDataVolumes⟩,
        ⟨.containerdInstall, e.containerdInstall⟩] : List Step) ++ pullSteps e ++
        clusterSteps e ++
        (versionSteps e ++ sgInitSteps e ++ sourcegraphdSteps e)).map Step.call) :
    c.isNewDisk = false ∧ c.isMountQuery = false := by
  rw [List.map_append, List.mem_append] at h
  rcases h with h | h
  · simp only [List.map_append, pullSteps_calls, clusterSteps, List.mem_append, List.map_cons,
      List.map_nil, List.mem_cons, List.not_mem_nil, or_false] at h
    rcases h with (h | h) | h
    · rcases h with h | h <;> subst h <;> simp [Call.isNewDisk, Call.isMountQuery]
    · obtain ⟨img, h⟩ := mem_pullCalls h
      subst h; simp [Call.isNewDisk, Call.isMountQuery]
    · rcases h with h | h | h <;> subst h <;> simp [Call.isNewDisk, Call.isMountQuery]
  · have := tail_calls h
    tauto

/-! ## The stretch from the linking of the data volumes to the chart manager -/

/-- The fail-fast run of the stretch from the linking of the data volumes to the chart
manager, spelled out. -/
theorem runPlan_runtimeSteps (e : Env) :
    (runPlan (runtimeSteps e)).2 =
      match e.linkDataVolumes with
      | some _ => [.linkDataVolumes]
      | none =>
        match e.containerdInstall with
        | some _ => [.linkDataVolumes, .containerdInstall]
        | none =>
          [.linkDataVolumes, .containerdInstall] ++ pullCalls e ++
            match e.k3sInstall with
            | some _ => [.k3sInstall]
            | none => [.k3sInstall, .helmInstall] := by
  simp only [runtimeSteps, List.cons_append, List.nil_append, List.append_assoc, runPlan,
    Step.abort, Call.isPull, runPlan_pulls]
  cases e.linkDataVolumes <;> cases e.containerdInstall <;> cases e.k3sInstall <;>
    cases e.helmInstall <;> simp [runPlan_pulls, runPlan, Step.abort, Call.isPull]

/-- A pull is made only when the linking of the data volumes and the installation of the
container runtime have succeeded. -/
theorem pull_mem_runtime {e : Env} {img : String}
    (h : Call.pull img ∈ (runPlan (runtimeSteps e)).2) :
    e.linkDataVolumes = none ∧ e.containerdInstall = none := by
  rw [runPlan_runtimeSteps] at h
  cases h1 : e.linkDataVolumes <;> cases h2 : e.containerdInstall <;> simp [h1, h2] at h ⊢

/-- The chart manager is installed only when the steps before it have succeeded. -/
theorem helm_mem_runtime {e : Env}
    (h : Call.helmInstall ∈ (runPlan (runtimeSteps e)).2) :
    e.linkDataVolumes = none ∧ e.containerdInstall = none ∧ e.k3sInstall = none := by
  rw [runPlan_runtimeSteps] at h
  have hp : Call.helmInstall ∉ pullCalls e := fun hc => by
    obtain ⟨img, himg⟩ := mem_pullCalls hc
    cases himg
  cases h1 : e.linkDataVolumes <;> cases h2 : e.containerdInstall <;>
    cases h3 : e.k3sInstall <;> simp [h1, h2, h3, hp] at h ⊢

/-- The calls of every run split around the stretch from the linking of the data volumes
to the chart manager. -/
theorem install_calls_split (e : Env) (s : State) :
    ∃ pre mid post, install.calls e s = pre ++ mid ++ post ∧
      (∀ c ∈ pre, c.isRuntimeStep = false) ∧ (∀ c ∈ post, c.isRuntimeStep = false) ∧
      mid <+: runtimeSegment e ∧ (mid = [] ∨ mid = (runPlan (runtimeSteps e)).2) ∧
      (post ≠ [] → mid = runtimeSegment e) := by
  have hnil : install.calls e s = [] → ∃ pre mid post, install.calls e s = pre ++ mid ++ post ∧
      (∀ c ∈ pre, c.isRuntimeStep = false) ∧ (∀ c ∈ post, c.isRuntimeStep = false) ∧
      mid <+: runtimeSegment e ∧ (mid = [] ∨ mid = (runPlan (runtimeSteps e)).2) ∧
      (post ≠ [] → mid = runtimeSegment e) := fun h => ⟨[], [], [], by simp [h]⟩
  cases hu : e.userCurrent with
  | error err =>
    exact hnil (by simp [install, install.calls, newCalls, user.Current, hu])
  | ok u =>
    by_cases hroot : u.Uid = "0"
    swap
    · exact hnil (by simp [install, install.calls, newCalls, user.Current, hu, hroot])
    rw [install_calls e s u hu hroot, plan_split]
    have hpre : ∀ c ∈ (runPlan (kernelSteps e ++ volumeSteps e)).2, c.isRuntimeStep = false :=
      fun c hc => (head_calls (mem_of_runPlan hc)).2.2
    cases h1 : (runPlan (kernelSteps e ++ volumeSteps e)).1 with
    | some err =>
      rw [runPlan_append_some _ _ err h1]
      exact ⟨_, [], [], by simp, hpre, by simp, by simp, by simp, by simp⟩
    | none =>
      rw [runPlan_append_none _ _ h1]
      cases h2 : (runPlan (runtimeSteps e)).1 with
      | some err =>
        rw [runPlan_append_some _ _ err h2]
        refine ⟨_, (runPlan (runtimeSteps e)).2, [], by simp, hpre, by simp, ?_, by simp,
          by simp⟩
        rw [← runtimeSteps_calls]
        exact runPlan_calls_le _
      | none =>
        rw [runPlan_append_none _ _ h2]
        have h3 := runPlan_none _ h2
        rw [runtimeSteps_calls] at h3
        refine ⟨_, (runPlan (runtimeSteps e)).2, _, (List.append_assoc _ _ _).symm, hpre, ?_,
          ?_, by simp, fun _ => h3⟩
        · intro c hc
          have hm := mem_of_runPlan hc
          simp only [List.map_cons, List.mem_cons] at hm
          rcases hm with h | h
          · subst h; rfl
          · exact (tail_calls h).2.2.2
        · rw [h3]

/-! ## The handles of the service installers -/

/-- On every exit path `setupSGInit` leaves the table of open handles as it found it. -/
theorem setupSGInit_handles (e : Env) (s : State) :
    (setupSGInit e s).2.handles = s.handles := by
  simp only [setupSGInit, embeddedFS.ReadFile, openFile_eq, service.Enable, withDefer,
    State.log]
  cases h1 : e.embeddedFS "bin/sg-init.service" <;> simp
  cases h2 : e.openErr "/etc/systemd/system/sg-init.service" <;> simp [write_eq]
  cases h4 : e.writeErr "/etc/systemd/system/sg-init.service" <;> simp [close_eq]
  cases h5 : e.embeddedFS "bin/sg-init" <;> simp [close_eq]
  cases h6 : e.openErr "/usr/local/bin/sg-init" <;> simp [write_eq, close_eq]
  cases h7 : e.writeErr "/usr/local/bin/sg-init" <;> simp [close_eq]
  cases h8 : e.enable "sg-init.service" <;> simp [close_eq]

/-- Once `setupSourcegraphd` has opened its unit file, it returns with that handle still in
the table of open handles, on every exit path. -/
theorem setupSourcegraphd_handles (e : Env) (s : State) (srv : Bytes)
    (hread : e.embeddedFS "bin/sourcegraphd.service" = .ok srv)
    (hopen : e.openErr "/etc/systemd/system/sourcegraphd.service" = none) :
    ∃ off, (setupSourcegraphd e s).2.handles =
      ⟨s.nextFd, "/etc/systemd/system/sourcegraphd.service", off⟩ :: s.handles := by
  simp only [setupSourcegraphd, embeddedFS.ReadFile, openFile_eq, service.Enable, withDefer,
    State.log, hread, hopen, write_eq]
  cases h4 : e.writeErr "/etc/systemd/system/sourcegraphd.service" <;> simp [close_eq]
  cases h5 : e.embeddedFS "bin/sourcegraphd" <;> simp [close_eq]
  cases h6 : e.openErr "/usr/local/bin/sourcegraphd" <;> simp [write_eq, close_eq]
  cases h7 : e.writeErr "/usr/local/bin/sourcegraphd" <;> simp [close_eq]
  cases h8 : e.enable "sourcegraphd.service" <;> simp [close_eq]

/-! ## Writing without truncation -/

/-- Writing at offset 0 keeps the bytes of the old content beyond the data written. -/
theorem writeAt_zero (old data : Bytes) :
    os.writeAt old 0 data = data ++ old.drop data.length := by
  simp [os.writeAt]

/-- Over an absent file, or over content no longer than the asset, the write leaves exactly
the asset. -/
theorem overwrite_short (asset : Bytes) (old : Option Bytes)
    (h : (old.getD []).length ≤ asset.length) : overwrite asset old = asset := by
  simp [overwrite, List.drop_eq_nil_of_le h]

/-! ## The plan up to the order of the pulls -/

/-- Two lists of steps that differ only in the order of a middle stretch of pulls make,
up to that order, the same calls up to any step that is not one of these pulls. -/
theorem take_calls_perm (A B P P0 : List Step)
    (hP : (P.map Step.call).Perm (P0.map Step.call))
    (hpull : ∀ st ∈ P, st.call.isPull = true) (k : Nat) (st : Step)
    (hk : (A ++ (P ++ B))[k]? = some st) (hnp : st.call.isPull = false) :
    (((A ++ (P ++ B)).take (k + 1)).map Step.call).Perm
      (((A ++ (P0 ++ B)).take (k + 1)).map Step.call) := by
  induction A generalizing k with
  | nil =>
    simp only [List.nil_append] at hk ⊢
    have hlen : P0.length = P.length := by simpa using hP.length_eq.symm
    by_cases hlt : k < P.length
    · rw [List.getElem?_append_left hlt] at hk
      have := hpull st (List.mem_iff_getElem?.2 ⟨k, hk⟩)
      simp [hnp] at this
    · have h1 : P.length ≤ k + 1 := by omega
      have h0 : P0.length ≤ k + 1 := by omega
      have e1 : (P ++ B).take (k + 1) = P ++ B.take (k + 1 - P.length) := by
        rw [List.take_append_eq_append_take, List.take_of_length_le h1]
      have e2 : (P0 ++ B).take (k + 1) = P0 ++ B.take (k + 1 - P.length) := by
        rw [List.take_append_eq_append_take, List.take_of_length_le h0, hlen]
      rw [e1, e2]
      simp only [List.map_append]
      exact hP.append_right _
  | cons a A ih =>
    cases k with
    | zero => simp
    | succ k =>
      simp only [List.cons_append, List.getElem?_cons_succ] at hk
      simp only [List.cons_append, List.take_succ_cons, List.map_cons]
      exact (ih k hk).cons _

/-- Up to a step that is not a pull, the plan makes the calls of the plan with the pulls in
list order, up to the order of the pulls. -/
theorem plan_take_perm (e : Env) (k : Nat) (st : Step) (hk : (plan e)[k]? = some st)
    (hnp : st.call.isPull = false) :
    (((plan e).take (k + 1)).map Step.call).Perm
      (((plan { e with schedule := [] }).take (k + 1)).map Step.call) := by
  have h1 : plan e = prePullSteps e ++ (pullSteps e ++
      (clusterSteps e ++ versionSteps e ++ sgInitSteps e ++ sourcegraphdSteps e)) := by
    simp [plan]
  have h2 : plan { e with schedule := [] } = prePullSteps e ++
      (pullSteps { e with schedule := [] } ++
      (clusterSteps e ++ versionSteps e ++ sgInitSteps e ++ sourcegraphdSteps e)) := by
    simp only [plan, List.append_assoc]
    rfl
  rw [h1] at hk
  rw [h1, h2]
  refine take_calls_perm _ _ _ _ ?_ ?_ k st hk hnp
  · rw [pullSteps_calls, pullSteps_calls]
    exact (pullCalls_perm e).trans (pullCalls_perm { e with schedule := [] }).symm
  · intro x hx
    simp only [pullSteps, List.mem_map] at hx
    obtain ⟨y, -, hy⟩ := hx
    subst hy
    rfl

/-! ## The privilege check and the fail-fast policy -/

/-- Claim C1: for every current-user identity whose uid is not "0", `install` returns the
authorization error (so a non-nil error) and makes no recorded call at all: no kernel
setter, distribution predicate, mount query, disk provisioning, installer, image pull,
asset read, file open or write, or service enable.  The host state is left as it was. -/
theorem install_not_root (e : Env) (s : State) (u : User) (hu : e.userCurrent = .ok u)
    (hne : u.Uid ≠ "0") :
    (install e s).1 = some (errors.Errorf "please rerun installer with root privileges") ∧
    install.calls e s = [] ∧ (install e s).2 = s := by
  simp [install, install.calls, newCalls, user.Current, hu, hne]

/-- Claim C1 on a concrete host: the user with uid "1000". -/
theorem install_not_root_witness :
    (install envNotRoot hostEmpty).1 =
        some (errors.Errorf "please rerun installer with root privileges") ∧
    install.calls envNotRoot hostEmpty = [] ∧ (install envNotRoot hostEmpty).2 = hostEmpty :=
  install_not_root envNotRoot hostEmpty ⟨"1000"⟩ rfl (by decide)

/-- Claim C2: when the identity lookup fails, `install` returns its error and makes no call.
For the superuser and every assignment of results to the calls: when step `k` of the plan
is not an image pull and fails with `err`, and every step before it that is not an image
pull succeeds, then `install` returns exactly `err` and the calls it makes are those of the
steps up to and including step `k`, so that no later step is invoked.  The plan lists the
steps in the order `install` takes them, with the concurrent pulls in the order in which
they happen in the run; that order is free (`pullCalls_surj`).  Up to the order of the
pulls, the calls are those of the steps up to step `k` of the plan with the pulls in list
order. -/
theorem install_fail_fast (e : Env) (s : State) :
    (∀ err, e.userCurrent = .error err → (install e s).1 = some err ∧ install.calls e s = []) ∧
    (∀ u, e.userCurrent = .ok u → u.Uid = "0" →
      ∀ (k : Nat) (st : Step) (err : Error), (plan e)[k]? = some st →
        st.call.isPull = false → st.result = some err →
        (∀ sj ∈ (plan e).take k, sj.call.isPull = false → sj.result = none) →
        (install e s).1 = some err ∧
        install.calls e s = ((plan e).take (k + 1)).map Step.call ∧
        (install.calls e s).Perm
          (((plan { e with schedule := [] }).take (k + 1)).map Step.call)) := by
  constructor
  · intro err herr
    simp [install, install.calls, newCalls, user.Current, herr]
  · intro u hu hroot k st err hk hnp hfail hfirst
    have hrun := runPlan_first_failure (plan e) k st err hk (by simp [Step.abort, hnp, hfail])
      (fun sj hsj => by
        cases hp : sj.call.isPull
        · simpa [Step.abort, hp] using hfirst sj hsj hp
        · simp [Step.abort, hp])
    rw [install_calls e s u hu hroot, (install_run e s u hu hroot).1, hrun]
    exact ⟨rfl, rfl, plan_take_perm e k st hk hnp⟩

/-- Claim C2 on a concrete host: the pulls happen in the order a, c, b, the pull of the
second image and the chart-manager install fail; the error of the chart-manager install is
returned and nothing is called after it. -/
theorem install_fail_fast_witness :
    (install envHelmFails hostEmpty).1 = some ⟨"helm"⟩ ∧
    install.calls envHelmFails hostEmpty =
      kernelSettings ++
        [.isAmazonLinux, .isMounted "/mnt/data" "/dev/nvme1n1",
         .newDisk "/mnt/data" "/dev/nvme1n1" .XFS [.Mount], .linkDataVolumes,
         .containerdInstall, .pull "a", .pull "c", .pull "b", .k3sInstall, .helmInstall] ∧
    (install.calls envHelmFails hostEmpty).Perm
      (kernelSettings ++
        [.isAmazonLinux, .isMounted "/mnt/data" "/dev/nvme1n1",
         .newDisk "/mnt/data" "/dev/nvme1n1" .XFS [.Mount], .linkDataVolumes,
         .containerdInstall, .pull "a", .pull "b", .pull "c", .k3sInstall, .helmInstall]) :=
  (install_fail_fast envHelmFails hostEmpty).2 ⟨"0"⟩ rfl rfl 15
    ⟨.helmInstall, some ⟨"helm"⟩⟩ ⟨"helm"⟩ rfl rfl rfl (by decide)

/-- Claim C3: for the superuser and every `k` from 1 to 6, when the `k`-th kernel setting
in the fixed order is the first to fail, the calls `install` makes are exactly the settings
1 to `k` in that order, each once with its listed value (so the settings after `k` are
never attempted), and `install` returns the error of setting `k`. -/
theorem install_kernel_fail_fast (e : Env) (s : State) (u : User)
    (hu : e.userCurrent = .ok u) (hroot : u.Uid = "0") (k : Nat) (hk1 : 1 ≤ k) (hk6 : k ≤ 6)
    (err : Error)
    (hfail : ((kernelSteps e)[k - 1]?).map Step.result = some (some err))
    (hfirst : ∀ st ∈ (kernelSteps e).take (k - 1), st.result = none) :
    (install e s).1 = some err ∧ install.calls e s = kernelSettings.take k := by
  interval_cases k <;>
    simp [kernelSteps] at hfail hfirst <;>
    simp [install, install.calls, newCalls, user.Current, hu, hroot, kernelSettings,
      kernel.SetInotifyMaxUserWatches, kernel.SetVmMaxMapCount, kernel.SetSoftNProc,
      kernel.SetHardNProc, kernel.SetSoftNoFile, kernel.SetHardNoFile, State.log, hfail, hfirst]

/-- Claim C3 on a concrete host: the fourth setting, the hard process limit, fails. -/
theorem install_kernel_fail_fast_witness :
    (install envNProcFails hostEmpty).1 = some ⟨"nproc"⟩ ∧
    install.calls envNProcFails hostEmpty =
      [.setInotifyMaxUserWatches 128000, .setVmMaxMapCount 300000, .setSoftNProc 8192,
       .setHardNProc 16384] :=
  install_kernel_fail_fast envNProcFails hostEmpty ⟨"0"⟩ rfl rfl 4 (by decide) (by decide)
    ⟨"nproc"⟩ rfl (by decide)

/-! ## The image prefetch and its place in the run -/

/-- Claim C4: for the superuser, every image list, every choice of the pulls that fail and
every order in which the concurrent pulls happen, when the steps before the prefetch
succeed, `install` makes the calls of those steps, then the pulls, which are one pull per
entry of the image list in some order, then the call that follows the prefetch (the
installation of the cluster distribution).  These are all the pulls of the run: each image
reference is pulled as many times as it occurs in the list.  The error `install` returns
depends neither on what the pulls return nor on their order. -/
theorem install_pulls_best_effort (e : Env) (s : State) (u : User)
    (hu : e.userCurrent = .ok u) (hroot : u.Uid = "0")
    (hpre : ∀ st ∈ prePullSteps e, st.result = none) :
    (∃ pulls post, install.calls e s =
        (prePullSteps e).map Step.call ++ pulls ++ .k3sInstall :: post ∧
        pulls.Perm (e.images.map Call.pull) ∧ ∀ c ∈ post, c.isPull = false) ∧
    ((install.calls e s).filter Call.isPull).Perm (e.images.map Call.pull) ∧
    (∀ img, (install.calls e s).count (Call.pull img) = e.images.count img) ∧
    (∀ p sch, (install { e with pull := p, schedule := sch } s).1 = (install e s).1) := by
  have hcalls := install_calls e s u hu hroot
  have hplan : plan e = prePullSteps e ++ (pullSteps e ++ (⟨.k3sInstall, e.k3sInstall⟩ ::
      ([⟨.helmInstall, e.helmInstall⟩, ⟨.unpackK8sConfigs, e.unpackK8sConfigs⟩] ++
        (versionSteps e ++ sgInitSteps e ++ sourcegraphdSteps e)))) := by
    simp [plan, clusterSteps]
  have hok : runPlan (prePullSteps e) = (none, (prePullSteps e).map Step.call) :=
    runPlan_ok _ (fun st hst => by simp [Step.abort, hpre st hst])
  rw [hplan, runPlan_append, hok, runPlan_pulls] at hcalls
  have hpost : ∃ post, install.calls e s =
        (prePullSteps e).map Step.call ++ pullCalls e ++ .k3sInstall :: post ∧
        ∀ c ∈ post, c.isPull = false := by
    cases hk : e.k3sInstall with
    | some err =>
      refine ⟨[], ?_, by simp⟩
      simp [hcalls, runPlan, Step.abort, Call.isPull, hk]
    | none =>
      refine ⟨(runPlan ([⟨.helmInstall, e.helmInstall⟩,
        ⟨.unpackK8sConfigs, e.unpackK8sConfigs⟩] ++
        (versionSteps e ++ sgInitSteps e ++ sourcegraphdSteps e))).2, ?_, ?_⟩
      · rw [hcalls]
        conv_lhs => simp only [runPlan, Step.abort, Call.isPull, hk]
        simp [runPlan, Step.abort, Call.isPull]
      · intro c hc
        have hm := mem_of_runPlan hc
        simp only [List.map_append, List.mem_append, List.map_cons, List.map_nil,
          List.mem_cons, List.mem_singleton, List.not_mem_nil, or_false] at hm
        rcases hm with (h | h) | h
        · subst h; rfl
        · subst h; rfl
        · exact (tail_calls (e := e)
            (by simp only [List.map_append, List.mem_append]; tauto)).1
  obtain ⟨post, hp, hnp⟩ := hpost
  have h2 : (pullCalls e).filter Call.isPull = pullCalls e :=
    List.filter_eq_self.2 (fun c hc => by
      obtain ⟨img, himg⟩ := mem_pullCalls hc
      subst himg
      rfl)
  have h3 : ((prePullSteps e).map Step.call).filter Call.isPull = [] :=
    List.filter_eq_nil_iff.2 (fun c hc => by simp [(prePull_calls hc).1])
  have h4 : post.filter Call.isPull = [] :=
    List.filter_eq_nil_iff.2 (fun c hc => by simp [hnp c hc])
  have hfilter : (install.calls e s).filter Call.isPull = pullCalls e := by
    rw [hp]
    simp [List.filter_append, h2, h3, h4, List.filter_cons, Call.isPull]
  have hperm : ((install.calls e s).filter Call.isPull).Perm (e.images.map Call.pull) := by
    rw [hfilter]
    exact pullCalls_perm e
  refine ⟨⟨pullCalls e, post, hp, pullCalls_perm e, hnp⟩, hperm, ?_, ?_⟩
  · intro img
    have hc := hperm.count_eq (Call.pull img)
    rw [List.count_filter (by rfl)] at hc
    rw [hc]
    exact List.count_map_of_injective _ _ (fun a b hab => by cases hab; rfl) _
  · intro p sch
    rw [(install_run e s u hu hroot).1,
      (install_run { e with pull := p, schedule := sch } s u hu hroot).1,
      runPlan_plan_fst, runPlan_plan_fst]
    rfl

/-- Claim C4 on a concrete host: the three pulls happen in the order c, a, b and all fail;
each image is pulled once and the error returned is the one returned when every pull
succeeds and the pulls happen in list order. -/
theorem install_pulls_best_effort_witness :
    ((install.calls envPullsFail hostEmpty).filter Call.isPull).Perm
      [.pull "a", .pull "b", .pull "c"] ∧
    (install.calls envPullsFail hostEmpty).count (Call.pull "b") = 1 ∧
    (install { envPullsFail with pull := fun _ _ => none, schedule := [] } hostEmpty).1 =
      (install envPullsFail hostEmpty).1 :=
  ⟨(install_pulls_best_effort envPullsFail hostEmpty ⟨"0"⟩ rfl rfl (by decide)).2.1,
   (install_pulls_best_effort envPullsFail hostEmpty ⟨"0"⟩ rfl rfl (by decide)).2.2.1 "b",
   (install_pulls_best_effort envPullsFail hostEmpty ⟨"0"⟩ rfl rfl (by decide)).2.2.2
     (fun _ _ => none) []⟩

/-- Claim C5 as stated fails: on a host with one image where the installation of the
cluster distribution fails, the pull is attempted although that installer never returns
successfully, and it sits between the installation of the container runtime and that of
the cluster distribution, so the three calls of the runtime installer are not
consecutive. -/
theorem install_pulls_before_k3s :
    install.calls envK3sFails hostEmpty =
      kernelSettings ++
        [.isAmazonLinux, .isMounted "/mnt/data" "/dev/nvme1n1",
         .newDisk "/mnt/data" "/dev/nvme1n1" .XFS [.Mount], .linkDataVolumes,
         .containerdInstall, .pull "a", .k3sInstall] ∧
    (install envK3sFails hostEmpty).1 = some ⟨"k3s"⟩ ∧
    ¬ [Call.linkDataVolumes, .containerdInstall, .k3sInstall] <:+:
      install.calls envK3sFails hostEmpty := by
  decide

/-- Claim C5, amended: in every run of `install` the calls split into three stretches.  With
`pulls` the pulls of the run, which are one pull per image reference in some order, the
middle stretch is an initial part of: link the data-volume paths, install the container
runtime, the pulls, install the cluster distribution, install the chart manager, made
consecutively in this order, fail-fast except for the pulls, and with either none or all
of the pulls.  No such call occurs before or after the middle stretch, and a call after it
is made only when the middle stretch is complete.  So a pull is attempted only after the
linking and the container-runtime installer have returned successfully, the pulls come
before the installation of the cluster distribution, and the chart manager is installed
only after the cluster-distribution installer has returned successfully. -/
theorem install_runtime_order (e : Env) (s : State) :
    (∃ pulls : List Call, pulls.Perm (e.images.map Call.pull) ∧
      ∃ pre mid post, install.calls e s = pre ++ mid ++ post ∧
        (∀ c ∈ pre, c.isRuntimeStep = false) ∧ (∀ c ∈ post, c.isRuntimeStep = false) ∧
        (mid = [] ∨ mid = [.linkDataVolumes] ∨ mid = [.linkDataVolumes, .containerdInstall] ∨
          mid = [.linkDataVolumes, .containerdInstall] ++ pulls ++ [.k3sInstall] ∨
          mid = [.linkDataVolumes, .containerdInstall] ++ pulls ++
            [.k3sInstall, .helmInstall]) ∧
        (post ≠ [] →
          mid = [.linkDataVolumes, .containerdInstall] ++ pulls ++
            [.k3sInstall, .helmInstall])) ∧
    (∀ img, Call.pull img ∈ install.calls e s →
      e.linkDataVolumes = none ∧ e.containerdInstall = none) ∧
    (Call.helmInstall ∈ install.calls e s → e.k3sInstall = none) := by
  have hsplit := install_calls_split e s
  refine ⟨?_, ?_, ?_⟩
  · obtain ⟨pre, mid, post, hc, hpre, hpost, -, hmid, hfull⟩ := hsplit
    refine ⟨pullCalls e, pullCalls_perm e, pre, mid, post, hc, hpre, hpost, ?_, hfull⟩
    rcases hmid with hm | hm
    · exact Or.inl hm
    · rw [runPlan_runtimeSteps] at hm
      cases h1 : e.linkDataVolumes <;> cases h2 : e.containerdInstall <;>
        cases h3 : e.k3sInstall <;> simp [h1, h2, h3] at hm <;> simp [hm]
  · obtain ⟨pre, mid, post, hc, hpre, hpost, -, hmid, -⟩ := hsplit
    intro img himg
    rw [hc] at himg
    simp only [List.mem_append] at himg
    rcases himg with (h | h) | h
    · simpa [Call.isRuntimeStep] using hpre _ h
    · rcases hmid with hm | hm
      · simp [hm] at h
      · exact pull_mem_runtime (hm ▸ h)
    · simpa [Call.isRuntimeStep] using hpost _ h
  · obtain ⟨pre, mid, post, hc, hpre, hpost, -, hmid, -⟩ := hsplit
    intro hh
    rw [hc] at hh
    simp only [List.mem_append] at hh
    rcases hh with (h | h) | h
    · simpa [Call.isRuntimeStep] using hpre _ h
    · rcases hmid with hm | hm
      · simp [hm] at h
      · exact (helm_mem_runtime (hm ▸ h)).2.2
    · simpa [Call.isRuntimeStep] using hpost _ h

/-! ## The volume provisioner and the version stamper -/

/-- Claim C6: for the superuser on a host where the distribution predicate is true, the
kernel settings succeed and the mount-state query for ("/mnt/data", "/dev/nvme1n1")
succeeds with answer `m`: the disk-provisioning calls of the run are none when `m` says
mounted, and exactly one, with that path and device, the XFS filesystem type and the
mount-after-format option, when `m` says not mounted.  So the operation is invoked if and
only if the query reports not mounted. -/
theorem install_provisions_iff_unmounted (e : Env) (s : State) (u : User)
    (hu : e.userCurrent = .ok u) (hroot : u.Uid = "0") (hamz : e.isAmazonLinux = true)
    (hker : ∀ st ∈ kernelSteps e, st.result = none) (m : Bool)
    (hm : e.isMounted "/mnt/data" "/dev/nvme1n1" = .ok m) :
    (install.calls e s).filter Call.isNewDisk =
        (if m then [] else [.newDisk "/mnt/data" "/dev/nvme1n1" .XFS [.Mount]]) ∧
    ((∃ c ∈ install.calls e s, c.isNewDisk = true) ↔ m = false) := by
  have hplan : plan e = kernelSteps e ++ (volumeSteps e ++
      (([⟨.linkDataVolumes, e.linkDataVolumes⟩,
        ⟨.containerdInstall, e.containerdInstall⟩] : List Step) ++ pullSteps e ++
        clusterSteps e ++
        (versionSteps e ++ sgInitSteps e ++ sourcegraphdSteps e))) := by
    simp [plan, prePullSteps]
  have hk : runPlan (kernelSteps e) = (none, (kernelSteps e).map Step.call) :=
    runPlan_ok _ (fun st hst => by simp [Step.abort, hker st hst])
  have hkf : ((kernelSteps e).map Step.call).filter Call.isNewDisk = [] := by
    simp [kernelSteps, Call.isNewDisk]
  have hrest := filter_nil_of_runPlan Call.isNewDisk _
    (fun c hc => (after_volume_calls (e := e) hc).1)
  have key : (install.calls e s).filter Call.isNewDisk =
      (if m then [] else [.newDisk "/mnt/data" "/dev/nvme1n1" .XFS [.Mount]]) := by
    rw [install_calls e s u hu hroot, hplan, runPlan_append_none _ _ (by rw [hk]), hk]
    cases m with
    | true =>
      have hv : runPlan (volumeSteps e) = (none, [.isAmazonLinux,
          .isMounted "/mnt/data" "/dev/nvme1n1"]) := by
        simp [volumeSteps, hamz, hm, runPlan, Step.abort, Call.isPull, errOf]
      rw [runPlan_append_none _ _ (by rw [hv]), hv]
      simp only [List.filter_append, hkf, hrest]
      rfl
    | false =>
      cases hn : e.newDisk "/mnt/data" "/dev/nvme1n1" .XFS [.Mount] with
      | some err =>
        have hv : runPlan (volumeSteps e) = (some err, [.isAmazonLinux,
            .isMounted "/mnt/data" "/dev/nvme1n1",
            .newDisk "/mnt/data" "/dev/nvme1n1" .XFS [.Mount]]) := by
          simp [volumeSteps, hamz, hm, hn, runPlan, Step.abort, Call.isPull, errOf]
        rw [runPlan_append_some _ _ err (by rw [hv]), hv]
        simp only [List.filter_append, hkf]
        rfl
      | none =>
        have hv : runPlan (volumeSteps e) = (none, [.isAmazonLinux,
            .isMounted "/mnt/data" "/dev/nvme1n1",
            .newDisk "/mnt/data" "/dev/nvme1n1" .XFS [.Mount]]) := by
          simp [volumeSteps, hamz, hm, hn, runPlan, Step.abort, Call.isPull, errOf]
        rw [runPlan_append_none _ _ (by rw [hv]), hv]
        simp only [List.filter_append, hkf, hrest]
        rfl
  refine ⟨key, ?_⟩
  have hiff : (∃ c ∈ install.calls e s, c.isNewDisk = true) ↔
      (install.calls e s).filter Call.isNewDisk ≠ [] := by
    simp [List.filter_eq_nil_iff]
  rw [hiff, key]
  cases m <;> simp

/-- Claim C6 on a concrete host: the volume is not mounted and is provisioned once. -/
theorem install_provisions_iff_unmounted_witness :
    (install.calls envOK hostEmpty).filter Call.isNewDisk =
      [.newDisk "/mnt/data" "/dev/nvme1n1" .XFS [.Mount]] :=
  (install_provisions_iff_unmounted envOK hostEmpty ⟨"0"⟩ rfl rfl rfl (by decide) false rfl).1

/-- Claim C7: in every run of `install` on a host where the distribution predicate is
false, whoever runs it and whatever the other calls return, no call is a mount-state
query, a disk provisioning or a write of the version stamp.  For the superuser on a host
where the predicate is true and every step before the version stamper succeeds (image
pulls apart, whose failures are ignored), the version stamp is written exactly once, with
the version value of the package and the owning user "ec2-user". -/
theorem install_amazon_only (e : Env) (s : State) :
    (e.isAmazonLinux = false → ∀ c ∈ install.calls e s,
      c.isMountQuery = false ∧ c.isNewDisk = false ∧ c.isVersionStamp = false) ∧
    (∀ u, e.userCurrent = .ok u → u.Uid = "0" → e.isAmazonLinux = true →
      (∀ st ∈ prePullSteps e ++ clusterSteps e, st.result = none) →
      (install.calls e s).filter Call.isVersionStamp =
        [.writeSourcegraphVersion e.sgversion "ec2-user"]) := by
  constructor
  · intro hamz c hc
    cases hu : e.userCurrent with
    | error err => simp [install, install.calls, newCalls, user.Current, hu] at hc
    | ok u =>
      by_cases hroot : u.Uid = "0"
      swap
      · simp [install, install.calls, newCalls, user.Current, hu, hroot] at hc
      rw [install_calls e s u hu hroot] at hc
      have hm := mem_of_runPlan hc
      have hplan : plan e = (prePullSteps e ++ pullSteps e ++ clusterSteps e ++ versionSteps e) ++
          (sgInitSteps e ++ sourcegraphdSteps e) := by
        simp [plan]
      rw [hplan, List.map_append, List.mem_append] at hm
      rcases hm with hm | hm
      · simp only [prePullSteps, kernelSteps, volumeSteps, hamz, clusterSteps, versionSteps,
          List.map_append, pullSteps_calls, List.mem_append, List.map_cons, List.map_nil,
          List.mem_cons, List.not_mem_nil, or_false, Bool.false_eq_true,
          if_false] at hm
        rcases hm with (((hm | hm) | hm) | hm) | hm
        · rcases hm with (hm | hm | hm | hm | hm | hm) | hm <;> subst hm <;>
            simp [Call.isMountQuery, Call.isNewDisk, Call.isVersionStamp]
        · rcases hm with hm | hm <;> subst hm <;>
            simp [Call.isMountQuery, Call.isNewDisk, Call.isVersionStamp]
        · obtain ⟨img, hm⟩ := mem_pullCalls hm
          subst hm
          simp [Call.isMountQuery, Call.isNewDisk, Call.isVersionStamp]
        · rcases hm with hm | hm | hm <;> subst hm <;>
            simp [Call.isMountQuery, Call.isNewDisk, Call.isVersionStamp]
        · subst hm
          simp [Call.isMountQuery, Call.isNewDisk, Call.isVersionStamp]
      · have := service_calls hm
        tauto
  · intro u hu hroot hamz hpre
    have hplan : plan e = (prePullSteps e) ++ (pullSteps e ++ (clusterSteps e ++ (versionSteps e ++
          (sgInitSteps e ++ sourcegraphdSteps e)))) := by
      simp [plan]
    have h1 : runPlan (prePullSteps e) = (none, (prePullSteps e).map Step.call) :=
      runPlan_ok _ (fun st hst => by simp [Step.abort, hpre st (by simp [hst])])
    have h2 : runPlan (clusterSteps e) = (none, (clusterSteps e).map Step.call) :=
      runPlan_ok _ (fun st hst => by simp [Step.abort, hpre st (by simp [hst])])
    have hf1 : ((prePullSteps e).map Step.call).filter Call.isVersionStamp = [] :=
      List.filter_eq_nil_iff.2 (fun c hc => by simp [(prePull_calls hc).2])
    have hf2 : (pullCalls e).filter Call.isVersionStamp = [] :=
      List.filter_eq_nil_iff.2 (fun c hc => by
        obtain ⟨img, himg⟩ := mem_pullCalls hc
        subst himg
        simp [Call.isVersionStamp])
    have hf3 : ((clusterSteps e).map Step.call).filter Call.isVersionStamp = [] := by
      simp [clusterSteps, Call.isVersionStamp]
    have hf4 := filter_nil_of_runPlan Call.isVersionStamp (sgInitSteps e ++ sourcegraphdSteps e)
      (fun c hc => (service_calls hc).2.2.2.2)
    rw [install_calls e s u hu hroot, hplan, runPlan_append_none _ _ (by rw [h1]), h1,
      runPlan_pulls, runPlan_append_none _ _ (by rw [h2]), h2]
    cases hw : e.writeSourcegraphVersion e.sgversion "ec2-user" with
    | some err =>
      have hv : runPlan (versionSteps e) = (some err, [.isAmazonLinux,
          .writeSourcegraphVersion e.sgversion "ec2-user"]) := by
        simp [versionSteps, hamz, hw, runPlan, Step.abort, Call.isPull]
      rw [runPlan_append_some _ _ err (by rw [hv]), hv]
      simp only [List.filter_append, hf1, hf2, hf3]
      rfl
    | none =>
      have hv : runPlan (versionSteps e) = (none, [.isAmazonLinux,
          .writeSourcegraphVersion e.sgversion "ec2-user"]) := by
        simp [versionSteps, hamz, hw, runPlan, Step.abort, Call.isPull]
      rw [runPlan_append_none _ _ (by rw [hv]), hv]
      simp only [List.filter_append, hf1, hf2, hf3, hf4]
      rfl

/-- Claim C7 on concrete hosts: another distribution, and Amazon Linux with every step
succeeding. -/
theorem install_amazon_only_witness :
    (∀ c ∈ install.calls envOther hostEmpty,
      c.isMountQuery = false ∧ c.isNewDisk = false ∧ c.isVersionStamp = false) ∧
    (install.calls envOK hostEmpty).filter Call.isVersionStamp =
      [.writeSourcegraphVersion "v1" "ec2-user"] :=
  ⟨(install_amazon_only envOther hostEmpty).1 rfl,
   (install_amazon_only envOK hostEmpty).2 ⟨"0"⟩ rfl rfl rfl (by decide)⟩

/-! ## The service installers -/

/-- Claim C8 as stated fails: over an earlier, longer version of the unit file both
installers return success and the bytes of the earlier version beyond the asset's length
remain, since the file is opened without truncation. -/
theorem setup_keeps_old_tail :
    (setupSGInit envOK hostOld).1 = none ∧
    envOK.embeddedFS "bin/sg-init.service" = .ok [1, 2] ∧
    (setupSGInit envOK hostOld).2.files "/etc/systemd/system/sg-init.service" =
      some [1, 2, 9, 9, 9] ∧
    (setupSGInit envOK hostOld).2.files "/etc/systemd/system/sg-init.service" ≠ some [1, 2] ∧
    (setupSourcegraphd envOK hostOld).1 = none ∧
    envOK.embeddedFS "bin/sourcegraphd.service" = .ok [6] ∧
    (setupSourcegraphd envOK hostOld).2.files "/etc/systemd/system/sourcegraphd.service" =
      some [6, 9, 9] :=
  ⟨by decide, rfl, by decide, by decide, by decide, rfl, by decide⟩

/-- Claim C8, amended: for every prior state of the host file system, after `setupSGInit`
or `setupSourcegraphd` returns success both assets exist in the bundle, and the file at
the unit-file path and the file at the executable path each hold the bytes of the
corresponding asset followed by the bytes of the previous content beyond the asset's
length (the target is created if absent and is not truncated).  So each file holds exactly
the asset's bytes when the target was absent or its previous content was no longer than
the asset. -/
theorem setup_overwrites (svc : Service) (e : Env) (s : State)
    (hok : (svc.setup e s).1 = none) :
    ∃ srv bin, e.embeddedFS svc.unitAsset = .ok srv ∧ e.embeddedFS svc.binAsset = .ok bin ∧
      (svc.setup e s).2.files svc.unitPath = some (overwrite srv (s.files svc.unitPath)) ∧
      (svc.setup e s).2.files svc.binPath = some (overwrite bin (s.files svc.binPath)) ∧
      (((s.files svc.unitPath).getD []).length ≤ srv.length →
        (svc.setup e s).2.files svc.unitPath = some srv) ∧
      (((s.files svc.binPath).getD []).length ≤ bin.length →
        (svc.setup e s).2.files svc.binPath = some bin) := by
  have key : ∃ srv bin, e.embeddedFS svc.unitAsset = .ok srv ∧
      e.embeddedFS svc.binAsset = .ok bin ∧
      (svc.setup e s).2.files svc.unitPath = some (overwrite srv (s.files svc.unitPath)) ∧
      (svc.setup e s).2.files svc.binPath = some (overwrite bin (s.files svc.binPath)) := by
    cases svc
    · simp only [Service.setup, Service.unitAsset, Service.binAsset, Service.unitPath,
        Service.binPath, setupSGInit, embeddedFS.ReadFile, openFile_eq, service.Enable,
        withDefer, State.log] at hok ⊢
      cases h1 : e.embeddedFS "bin/sg-init.service" <;> simp [h1] at hok ⊢
      cases h2 : e.openErr "/etc/systemd/system/sg-init.service" <;>
        simp [h2, write_eq] at hok ⊢
      cases h4 : e.writeErr "/etc/systemd/system/sg-init.service" <;>
        simp [h4, close_eq] at hok ⊢
      cases h5 : e.embeddedFS "bin/sg-init" <;> simp [h5, close_eq] at hok ⊢
      cases h6 : e.openErr "/usr/local/bin/sg-init" <;> simp [h6, write_eq, close_eq] at hok ⊢
      cases h7 : e.writeErr "/usr/local/bin/sg-init" <;> simp [h7, close_eq] at hok ⊢
      cases h8 : e.enable "sg-init.service" <;> simp [h8, close_eq] at hok ⊢
      simp [writeAt_zero, overwrite]
    · simp only [Service.setup, Service.unitAsset, Service.binAsset, Service.unitPath,
        Service.binPath, setupSourcegraphd, embeddedFS.ReadFile, openFile_eq, service.Enable,
        withDefer, State.log] at hok ⊢
      cases h1 : e.embeddedFS "bin/sourcegraphd.service" <;> simp [h1] at hok ⊢
      cases h2 : e.openErr "/etc/systemd/system/sourcegraphd.service" <;>
        simp [h2, write_eq] at hok ⊢
      cases h4 : e.writeErr "/etc/systemd/system/sourcegraphd.service" <;>
        simp [h4, close_eq] at hok ⊢
      cases h5 : e.embeddedFS "bin/sourcegraphd" <;> simp [h5, close_eq] at hok ⊢
      cases h6 : e.openErr "/usr/local/bin/sourcegraphd" <;>
        simp [h6, write_eq, close_eq] at hok ⊢
      cases h7 : e.writeErr "/usr/local/bin/sourcegraphd" <;> simp [h7, close_eq] at hok ⊢
      cases h8 : e.enable "sourcegraphd.service" <;> simp [h8, close_eq] at hok ⊢
      simp [writeAt_zero, overwrite]
  obtain ⟨srv, bin, h1, h2, h3, h4⟩ := key
  exact ⟨srv, bin, h1, h2, h3, h4, fun h => by rw [h3, overwrite_short _ _ h],
    fun h => by rw [h4, overwrite_short _ _ h]⟩

/-- Claim C8, amended, on a concrete host: `setupSGInit` over an earlier, longer unit
file. -/
theorem setup_overwrites_witness :
    ∃ srv bin, envOK.embeddedFS Service.sgInit.unitAsset = .ok srv ∧
      envOK.embeddedFS Service.sgInit.binAsset = .ok bin ∧
      (Service.sgInit.setup envOK hostOld).2.files Service.sgInit.unitPath =
        some (overwrite srv (hostOld.files Service.sgInit.unitPath)) ∧
      (Service.sgInit.setup envOK hostOld).2.files Service.sgInit.binPath =
        some (overwrite bin (hostOld.files Service.sgInit.binPath)) ∧
      (((hostOld.files Service.sgInit.unitPath).getD []).length ≤ srv.length →
        (Service.sgInit.setup envOK hostOld).2.files Service.sgInit.unitPath = some srv) ∧
      (((hostOld.files Service.sgInit.binPath).getD []).length ≤ bin.length →
        (Service.sgInit.setup envOK hostOld).2.files Service.sgInit.binPath = some bin) :=
  setup_overwrites .sgInit envOK hostOld (by decide)

/-- Claim C9 as stated fails: with a bundle that holds the unit file but not the
executable, on a file system where the unit file cannot be opened, `setupSGInit` returns
the error of the open and not the asset-read error, and the unit file has not been
written. -/
theorem setup_missing_bin_open_fails :
    envReadOnly.embeddedFS "bin/sg-init.service" = .ok [1, 2] ∧
    envReadOnly.embeddedFS "bin/sg-init" = .error ⟨"file does not exist"⟩ ∧
    (setupSGInit envReadOnly hostEmpty).1 = some ⟨"read-only file system"⟩ ∧
    (setupSGInit envReadOnly hostEmpty).1 ≠ some ⟨"file does not exist"⟩ ∧
    newCalls hostEmpty (setupSGInit envReadOnly hostEmpty).2 =
      [.readFile "bin/sg-init.service",
       .openFile "/etc/systemd/system/sg-init.service" 66 492] ∧
    (setupSGInit envReadOnly hostEmpty).2.files "/etc/systemd/system/sg-init.service" = none :=
  ⟨rfl, rfl, by decide, by decide, by decide, by decide⟩

/-- Claim C9, amended: for each of the two service installers and every bundle that holds
the service's unit file but lacks its executable, the installer returns an error, never
invokes the service manager's enable operation and never opens the executable path; and
when opening and writing the unit file succeed, the error returned is the asset-read
error, the calls made are the read of the unit asset, the open of the unit file, the write
of the unit asset's bytes, and the failed read of the executable, and the unit file holds
the unit asset's bytes (followed by the bytes of a longer previous content beyond them). -/
theorem setup_missing_bin (svc : Service) (e : Env) (s : State) (srv : Bytes) (err : Error)
    (hunit : e.embeddedFS svc.unitAsset = .ok srv)
    (hbin : e.embeddedFS svc.binAsset = .error err) :
    (svc.setup e s).1 ≠ none ∧
    (∀ c ∈ newCalls s (svc.setup e s).2, c.isEnable = false ∧ c.opens svc.binPath = false) ∧
    (e.openErr svc.unitPath = none → e.writeErr svc.unitPath = none →
      (svc.setup e s).1 = some err ∧
      newCalls s (svc.setup e s).2 =
        [.readFile svc.unitAsset,
         .openFile svc.unitPath (os.O_RDWR ||| os.O_CREATE) svc.unitPerm,
         .write svc.unitPath srv, .readFile svc.binAsset] ∧
      (svc.setup e s).2.files svc.unitPath = some (overwrite srv (s.files svc.unitPath))) := by
  cases svc
  · simp only [Service.setup, Service.unitAsset, Service.binAsset, Service.unitPath,
      Service.binPath, Service.unitPerm, setupSGInit, embeddedFS.ReadFile, openFile_eq,
      service.Enable, withDefer, State.log, newCalls] at hunit hbin ⊢
    simp only [hunit]
    cases h2 : e.openErr "/etc/systemd/system/sg-init.service" <;>
      simp [h2, write_eq, Call.isEnable, Call.opens]
    cases h4 : e.writeErr "/etc/systemd/system/sg-init.service" <;>
      simp [h4, hbin, close_eq, Call.isEnable, Call.opens, writeAt_zero, overwrite]
  · simp only [Service.setup, Service.unitAsset, Service.binAsset, Service.unitPath,
      Service.binPath, Service.unitPerm, setupSourcegraphd, embeddedFS.ReadFile, openFile_eq,
      service.Enable, withDefer, State.log, newCalls] at hunit hbin ⊢
    simp only [hunit]
    cases h2 : e.openErr "/etc/systemd/system/sourcegraphd.service" <;>
      simp [h2, write_eq, Call.isEnable, Call.opens]
    cases h4 : e.writeErr "/etc/systemd/system/sourcegraphd.service" <;>
      simp [h4, hbin, close_eq, Call.isEnable, Call.opens, writeAt_zero, overwrite]

/-- Claim C9, amended, on a concrete host: `setupSourcegraphd` with a bundle that lacks the
executable, on a fresh host where files can be written. -/
theorem setup_missing_bin_witness :
    (Service.sourcegraphd.setup envNoBin hostEmpty).1 = some ⟨"file does not exist"⟩ ∧
    newCalls hostEmpty (Service.sourcegraphd.setup envNoBin hostEmpty).2 =
      [.readFile "bin/sourcegraphd.service",
       .openFile "/etc/systemd/system/sourcegraphd.service" (os.O_RDWR ||| os.O_CREATE) 0o755,
       .write "/etc/systemd/system/sourcegraphd.service" [6],
       .readFile "bin/sourcegraphd"] ∧
    (Service.sourcegraphd.setup envNoBin hostEmpty).2.files
        "/etc/systemd/system/sourcegraphd.service" =
      some (overwrite [6] (hostEmpty.files "/etc/systemd/system/sourcegraphd.service")) :=
  (setup_missing_bin .sourcegraphd envNoBin hostEmpty [6] ⟨"file does not exist"⟩
    rfl rfl).2.2 rfl rfl

/-- Claim C10 fails on the code: on a fresh host where every call succeeds, `setupSGInit`
returns with no handle left open, as before the call, while `setupSourcegraphd` returns
success with the handle of its unit file still open. -/
theorem setupSourcegraphd_leaks_unit_handle :
    hostEmpty.handles = [] ∧
    (setupSGInit envOK hostEmpty).1 = none ∧
    (setupSGInit envOK hostEmpty).2.handles = [] ∧
    (setupSourcegraphd envOK hostEmpty).1 = none ∧
    (setupSourcegraphd envOK hostEmpty).2.handles =
      [⟨3, "/etc/systemd/system/sourcegraphd.service", 1⟩] := by
  decide

end Deploy
